import Mathlib

/-!
FlappyBirdGame: a shallow embedding of the simulation core of `games/flappybird/game.js`

JavaScript numbers are modelled by exact rationals (`ℚ`), without the rounding of
IEEE doubles; the counters `score`, `bestScore` and `difficultyLevel`, which the
program only ever sets to integer values, are integers.  `Math.random()` is an explicit argument: every operation
that draws random numbers takes `rnd : ℕ → ℚ`, where `rnd i` is the value of the
`i`-th call of `Math.random()` made during that operation.  Sound playback, DOM
updates (`updateUI`, `animateScoreUpdate`, `animateLevelUp`) and `console.log`
do not touch the fields below and are left out, except for the one random draw
`playSound('score')` makes.  The `localStorage` entry
`flappyBirdBestScore` is the field `stored`.
-/

namespace FlappyBirdGame

/-- The four values of `this.gameState`. -/
inductive GameState where
  | start
  | playing
  | paused
  | gameOver
  deriving DecidableEq, Repr

/-- The object `this.bird`. -/
structure Bird where
  x : ℚ
  y : ℚ
  velocity : ℚ
  size : ℚ
  rotation : ℚ
  deriving DecidableEq, Repr

/-- An element of `this.pipes`. -/
structure Pipe where
  x : ℚ
  topHeight : ℚ
  bottomY : ℚ
  scored : Bool
  deriving DecidableEq, Repr

/-- An element of `this.particles`; `hue` is the number inside the `hsl(...)` colour string. -/
structure Particle where
  x : ℚ
  y : ℚ
  vx : ℚ
  vy : ℚ
  life : ℤ
  maxLife : ℤ
  hue : ℚ
  deriving DecidableEq, Repr

/-- The fields of a `FlappyBirdGame` instance that the simulation reads or writes. -/
structure Game where
  canvasWidth : ℕ
  canvasHeight : ℕ
  gameState : GameState
  gravity : ℚ
  jumpPower : ℚ
  pipeSpeed : ℚ
  pipeGap : ℚ
  pipeWidth : ℚ
  birdSize : ℚ
  maxVelocity : ℚ
  minVelocity : ℚ
  bird : Bird
  pipes : List Pipe
  score : ℤ
  bestScore : ℤ
  gameSpeed : ℚ
  difficultyLevel : ℤ
  particles : List Particle
  screenShake : ℚ
  lastScore : ℤ
  lastDifficultyLevel : ℤ
  stored : Option ℤ
  deriving DecidableEq, Repr

/-- The state `new FlappyBirdGame()` leaves behind.  `height0` is the height of the canvas
element before `setupCanvas` resizes it to the window (`innerWidth` × `innerHeight`);
`item` is the integer `parseInt` reads from `localStorage` (`none` when it yields `NaN`). -/
def constructor (height0 innerWidth innerHeight : ℕ) (item : Option ℤ) : Game :=
  { canvasWidth := innerWidth
    canvasHeight := innerHeight
    gameState := GameState.start
    gravity := 0.25
    jumpPower := -5
    pipeSpeed := 1.2
    pipeGap := 200
    pipeWidth := 45
    birdSize := 25
    maxVelocity := 7
    minVelocity := -7
    bird := { x := 100, y := (height0 : ℚ) / 2, velocity := 0, size := 25, rotation := 0 }
    pipes := []
    score := 0
    bestScore := item.getD 0
    gameSpeed := 1
    difficultyLevel := 1
    particles := []
    screenShake := 0
    lastScore := 0
    lastDifficultyLevel := 1
    stored := item }

/-- The method `startGame`. -/
def startGame (s : Game) : Game :=
  { s with
    gameState := GameState.playing
    score := 0
    difficultyLevel := 1
    lastScore := 0
    lastDifficultyLevel := 1
    bird := { s.bird with y := (s.canvasHeight : ℚ) / 2, velocity := 0, rotation := 0 }
    pipes := []
    particles := []
    gameSpeed := 1
    screenShake := 0 }

/-- The method `pauseGame`. -/
def pauseGame (s : Game) : Game :=
  if s.gameState = GameState.playing then { s with gameState := GameState.paused } else s

/-- The method `resumeGame`. -/
def resumeGame (s : Game) : Game :=
  if s.gameState = GameState.paused then { s with gameState := GameState.playing } else s

/-- The method `gameOver`. -/
def gameOver (s : Game) : Game :=
  if s.score > s.bestScore then
    { s with gameState := GameState.gameOver, bestScore := s.score, stored := some s.score }
  else
    { s with gameState := GameState.gameOver }

/-- The particle pushed by iteration `i` of the loop in `addJumpParticles`, which starts
drawing at `rnd k`. -/
def jumpParticle (rnd : ℕ → ℚ) (k : ℕ) (b : Bird) (i : ℕ) : Particle :=
  { x := b.x
    y := b.y
    vx := (rnd (k + 3 * i) - 0.5) * 4
    vy := rnd (k + 3 * i + 1) * 3 + 1
    life := 30
    maxLife := 30
    hue := rnd (k + 3 * i + 2) * 60 + 30 }

/-- The method `addJumpParticles`. -/
def addJumpParticles (rnd : ℕ → ℚ) (s : Game) : Game :=
  { s with particles := s.particles ++ (List.range 5).map (jumpParticle rnd 0 s.bird) }

/-- The method `showJumpFeedback`. -/
def showJumpFeedback (s : Game) : Game :=
  { s with screenShake := 1 }

/-- The method `jump`. -/
def jump (rnd : ℕ → ℚ) (s : Game) : Game :=
  if s.gameState = GameState.playing then
    let s1 := { s with bird := { s.bird with
      velocity := max s.jumpPower (s.bird.velocity + s.jumpPower), rotation := -0.2 } }
    showJumpFeedback (addJumpParticles rnd s1)
  else if s.gameState = GameState.start then
    startGame s
  else
    s

/-- The body of the loop in `updateParticles` for one particle. -/
def stepParticle (p : Particle) : Particle :=
  { p with x := p.x + p.vx, y := p.y + p.vy, vy := p.vy + 0.1, life := p.life - 1 }

/-- The method `updateParticles`: every particle is advanced, and spliced out when its
life is used up; the backwards loop keeps the order of the survivors. -/
def updateParticles (s : Game) : Game :=
  { s with particles := (s.particles.map stepParticle).filter (fun p => ¬ p.life ≤ 0) }

/-- The method `generatePipe`; it draws `rnd k`. -/
def generatePipe (rnd : ℕ → ℚ) (k : ℕ) (s : Game) : Game :=
  let minHeight : ℚ := 60
  let maxHeight : ℚ := (s.canvasHeight : ℚ) - s.pipeGap - 60
  let topHeight : ℚ := rnd k * (maxHeight - minHeight) + minHeight
  { s with pipes := s.pipes ++
      [{ x := (s.canvasWidth : ℚ), topHeight := topHeight, bottomY := topHeight + s.pipeGap,
         scored := false }] }

/-- The method `checkCollision`. -/
def checkCollision (s : Game) (bird : Bird) (pipe : Pipe) : Bool :=
  let birdLeft := bird.x - bird.size / 2
  let birdRight := bird.x + bird.size / 2
  let birdTop := bird.y - bird.size / 2
  let birdBottom := bird.y + bird.size / 2
  let pipeLeft := pipe.x
  let pipeRight := pipe.x + s.pipeWidth
  if birdRight > pipeLeft ∧ birdLeft < pipeRight then
    if birdTop < pipe.topHeight ∨ birdBottom > pipe.bottomY then true else false
  else
    false

/-- The constant `newDifficultyLevel` of `updateDifficulty`, as a function of the score:
`Math.floor(this.score / 8) + 1`. -/
def newDifficultyLevel (score : ℤ) : ℤ :=
  Int.floor ((score : ℚ) / 8) + 1

/-- The method `updateDifficulty`. -/
def updateDifficulty (s : Game) : Game :=
  let s1 := if newDifficultyLevel s.score > s.difficultyLevel then
      { s with difficultyLevel := newDifficultyLevel s.score } else s
  let s2 := { s1 with
    pipeSpeed := min (1.2 + ((s1.difficultyLevel : ℚ) - 1) * 0.2) 3
    pipeGap := max (200 - ((s1.difficultyLevel : ℚ) - 1) * 8) 160
    gravity := min (0.25 + ((s1.difficultyLevel : ℚ) - 1) * 0.03) 0.45 }
  if s2.score % 15 = 0 then { s2 with screenShake := 3 } else s2

/-- The particle pushed by iteration `i` of the loop in `addScoreParticles`, which starts
drawing at `rnd k`. -/
def scoreParticle (rnd : ℕ → ℚ) (k : ℕ) (b : Bird) (i : ℕ) : Particle :=
  { x := b.x
    y := b.y
    vx := (rnd (k + 3 * i) - 0.5) * 6
    vy := (rnd (k + 3 * i + 1) - 0.5) * 6
    life := 40
    maxLife := 40
    hue := rnd (k + 3 * i + 2) * 60 + 120 }

/-- The method `addScoreParticles`; it draws `rnd k`, ..., `rnd (k + 23)`. -/
def addScoreParticles (rnd : ℕ → ℚ) (k : ℕ) (s : Game) : Game :=
  { s with particles := s.particles ++ (List.range 8).map (scoreParticle rnd k s.bird) }

/-- The loop `for (let i = this.pipes.length - 1; i >= 0; i--)` of `update`:
`updatePipes rnd n k s` runs the iterations `i = n - 1, ..., 0` from state `s`, `k` being
the number of random draws made so far.  A collision ends the loop (`return`).  A scoring
event makes 25 draws: `playSound('score')` draws `rnd k` in `playRandomPipeSound` to pick the
sound, then `addScoreParticles` draws `rnd (k + 1)`, ..., `rnd (k + 24)`.  The loop
starts at `n = this.pipes.length` and only removes the pipe at the current index, so index
`i` is always in range; the `none` branch is never taken from `update`.  The subtraction
`pipe.x -= this.pipeSpeed * this.gameSpeed` is exact here; the rounding of IEEE doubles is
not modelled. -/
def updatePipes (rnd : ℕ → ℚ) : ℕ → ℕ → Game → Game
  | 0, _, s => s
  | i + 1, k, s =>
    match s.pipes.get? i with
    | none => updatePipes rnd i k s
    | some pipe0 =>
      let pipe := { pipe0 with x := pipe0.x - s.pipeSpeed * s.gameSpeed }
      let s1 := { s with pipes := s.pipes.set i pipe }
      if pipe.x + s1.pipeWidth < 0 then
        updatePipes rnd i k { s1 with pipes := s1.pipes.eraseIdx i }
      else if checkCollision s1 s1.bird pipe then
        gameOver s1
      else if ¬ pipe.scored ∧ pipe.x + s1.pipeWidth < s1.bird.x then
        let s2 := { s1 with pipes := s1.pipes.set i { pipe with scored := true },
                            score := s1.score + 1 }
        updatePipes rnd i (k + 25) (addScoreParticles rnd (k + 1) (updateDifficulty s2))
      else
        updatePipes rnd i k s1

/-- The bird physics at the head of `update`: gravity, velocity clamp, position, rotation. -/
def updateBird (s : Game) : Game :=
  let v := max s.minVelocity (min s.maxVelocity (s.bird.velocity + s.gravity))
  { s with bird := { s.bird with
      velocity := v
      y := s.bird.y + v
      rotation := min (max (v * 0.03) (-0.4)) 0.4 } }

/-- The screen-shake decay in `update`. -/
def updateShake (s : Game) : Game :=
  if s.screenShake > 0 then
    let sh := s.screenShake * 0.9
    { s with screenShake := if sh < 0.1 then 0 else sh }
  else s

/-- The pipe-spawning test of `update`. -/
def needsPipe (s : Game) : Bool :=
  match s.pipes.getLast? with
  | none => true
  | some last => decide (last.x < (s.canvasWidth : ℚ) - 200)

set_option linter.unusedVariables false in
/-- The method `update`; `deltaTime` is its argument. -/
def update (rnd : ℕ → ℚ) (deltaTime : ℚ) (s : Game) : Game :=
  if s.gameState ≠ GameState.playing then s
  else
    let s1 := updateShake (updateParticles (updateBird s))
    if s1.bird.y < 0 ∨ s1.bird.y > (s1.canvasHeight : ℚ) - 50 then
      gameOver s1
    else
      let s2 := if needsPipe s1 then generatePipe rnd 0 s1 else s1
      let k := if needsPipe s1 then 1 else 0
      updatePipes rnd s2.pipes.length k s2

/-- The states the program can be in: the constructor's state, closed under the five
operations the event handlers and the frame loop call. -/
inductive Reachable : Game → Prop
  | init (height0 innerWidth innerHeight : ℕ) (item : Option ℤ) :
      Reachable (constructor height0 innerWidth innerHeight item)
  | startGame {s : Game} : Reachable s → Reachable (startGame s)
  | jump {s : Game} (rnd : ℕ → ℚ) : Reachable s → Reachable (jump rnd s)
  | pauseGame {s : Game} : Reachable s → Reachable (pauseGame s)
  | resumeGame {s : Game} : Reachable s → Reachable (resumeGame s)
  | update {s : Game} (rnd : ℕ → ℚ) (deltaTime : ℚ) :
      Reachable s → Reachable (update rnd deltaTime s)

/-! ## Invariants and sample inputs -/

/-- The velocity invariant: the three constants have their constructor values and the
velocity lies between the two limits. -/
def VelocityInv (s : Game) : Prop :=
  s.jumpPower = -5 ∧ s.minVelocity = -7 ∧ s.maxVelocity = 7 ∧
    -7 ≤ s.bird.velocity ∧ s.bird.velocity ≤ 7

/-- A fixed source of random draws: every `Math.random()` call returns `1/2`. -/
def halfRnd : ℕ → ℚ := fun _ => 1 / 2

/-- A sample run: construct on a 360 × 640 window, start, jump, advance one frame. -/
def sampleRun : Game :=
  update halfRnd 16 (jump halfRnd (startGame (constructor 150 360 640 none)))

/-- The level invariant: `difficultyLevel` is the level `updateDifficulty` computes from
the current score. -/
def LevelInv (s : Game) : Prop :=
  s.difficultyLevel = newDifficultyLevel s.score

/-- A playing state whose bird rises with velocity `-3`. -/
def risingBird : Game :=
  { startGame (constructor 150 360 640 none) with
    bird := { x := 100, y := 320, velocity := -3, size := 25, rotation := 0 } }

/-- A playing state with score 3 whose bird is about to fall below the field. -/
def fallingBird : Game :=
  { startGame (constructor 150 360 640 (some 2)) with
    score := 3
    bird := { x := 100, y := 589, velocity := 7, size := 25, rotation := 0 }
    pipes := [{ x := 300, topHeight := 200, bottomY := 400, scored := false }] }

/-- The gap of a pipe: its `topHeight` and `bottomY`. -/
def gapOf (p : Pipe) : ℚ × ℚ :=
  (p.topHeight, p.bottomY)

/-- The pipe `generatePipe` pushes in state `s` when `Math.random()` returns `r`. -/
def newPipe (r : ℚ) (s : Game) : Pipe :=
  { x := (s.canvasWidth : ℚ)
    topHeight := r * ((s.canvasHeight : ℚ) - s.pipeGap - 60 - 60) + 60
    bottomY := r * ((s.canvasHeight : ℚ) - s.pipeGap - 60 - 60) + 60 + s.pipeGap
    scored := false }

/-- The state in which the pipe loop of `update` starts: bird physics and cosmetic decay
done, a pipe spawned if one is due. -/
def afterSpawn (rnd : ℕ → ℚ) (s : Game) : Game :=
  if needsPipe (updateShake (updateParticles (updateBird s))) then
    generatePipe rnd 0 (updateShake (updateParticles (updateBird s)))
  else updateShake (updateParticles (updateBird s))

/-- One wing beat: two jumps in a row, then 39 frames.  At gravity `0.25` it returns the
bird to the height and velocity it started with. -/
def wingbeat (s : Game) : Game :=
  (update halfRnd 16)^[39] (jump halfRnd (jump halfRnd s))

/-- The state at the end of a wing beat in a first run on a 360 × 640 window at level 1,
with the given score and pipes. -/
def cruise (score : ℤ) (pipes : List Pipe) : Game :=
  { startGame (constructor 150 360 640 none) with
    score := score
    pipes := pipes
    bird := { x := 100, y := 320, velocity := 19 / 4, size := 25, rotation := 57 / 400 } }

/-- A run that has ended: after 36 wing beats (score 7) the player jumps twice more, passes
the eighth pipe and then lets the bird fall out of the field. -/
def endedRun : Game :=
  (update halfRnd 16)^[78] (jump halfRnd (jump halfRnd
    (cruise 7 [⟨78, 220, 420, false⟩, ⟨1392 / 5, 220, 420, false⟩])))

/-- The state after `startGame` is called on the ended run. -/
def restartedRun : Game :=
  startGame endedRun

/-- The value of `endedRun`, field by field. -/
def endedRunState : Game :=
  { canvasWidth := 360
    canvasHeight := 640
    gameState := GameState.gameOver
    gravity := 7 / 25
    jumpPower := -5
    pipeSpeed := 7 / 5
    pipeGap := 192
    pipeWidth := 45
    birdSize := 25
    maxVelocity := 7
    minVelocity := -7
    bird := { x := 100, y := 1189 / 2, velocity := 7, size := 25, rotation := 21 / 100 }
    pipes := [⟨-129 / 5, 220, 420, true⟩, ⟨873 / 5, 220, 420, false⟩]
    score := 8
    bestScore := 8
    gameSpeed := 1
    difficultyLevel := 2
    particles := []
    screenShake := 0
    lastScore := 0
    lastDifficultyLevel := 1
    stored := some 8 }

/-- The method `gameLoop` without the rendering: `lastTime` is the field of that name, and
the result is the new state together with the new `lastTime`. -/
def gameLoop (rnd : ℕ → ℚ) (currentTime lastTime : ℚ) (s : Game) : Game × ℚ :=
  (update rnd (currentTime - lastTime) s, currentTime)

/-- The value `updateDifficulty` assigns to `pipeSpeed` at level `L`. -/
def pipeSpeedAt (L : ℤ) : ℚ :=
  min (1.2 + ((L : ℚ) - 1) * 0.2) 3

/-- The value `updateDifficulty` assigns to `pipeGap` at level `L`. -/
def pipeGapAt (L : ℤ) : ℚ :=
  max (200 - ((L : ℚ) - 1) * 8) 160

/-- The value `updateDifficulty` assigns to `gravity` at level `L`. -/
def gravityAt (L : ℤ) : ℚ :=
  min (0.25 + ((L : ℚ) - 1) * 0.03) 0.45

/-- A freshly started game on a 360 × 300 window. -/
def lowWindow : Game :=
  startGame (constructor 150 360 300 none)

/-- The pipe of one loop iteration of `update` after `pipe.x -= this.pipeSpeed * this.gameSpeed`. -/
def movedPipe (s : Game) (p : Pipe) : Pipe :=
  { p with x := p.x - s.pipeSpeed * s.gameSpeed }

/-- The state after the scoring branch of one loop iteration of `update`, `ps` being the
pipe list with the scoring pipe marked and `k` the number of draws made before:
`playSound('score')` draws `rnd k`, the particles draw from `rnd (k + 1)` on. -/
def scoreEvent (rnd : ℕ → ℚ) (k : ℕ) (s : Game) (ps : List Pipe) : Game :=
  addScoreParticles rnd (k + 1) (updateDifficulty { s with pipes := ps, score := s.score + 1 })

/-- The number of pipes in a list that have not scored yet. -/
def unscored (ps : List Pipe) : ℕ :=
  (ps.filter (fun p => !p.scored)).length

/-- The scenario of a bird flying through a gap: field height 600, one pipe with gap
`[200, 400]` whose right edge is about to pass the bird, the bird of size 25 just above
`y = 300` and rising slowly. -/
def passingBird : Game :=
  { startGame (constructor 150 360 600 none) with
    bird := { x := 100, y := 1201 / 4, velocity := -1 / 2, size := 25, rotation := 0 }
    pipes := [{ x := 281 / 5, topHeight := 200, bottomY := 400, scored := false }] }

/-- A first run in which, after six wing beats, the player stops jumping: thirteen frames
later the bird is diving towards the lower part of the oldest pipe. -/
def divingBird : Game :=
  { cruise 0 [⟨318 / 5, 220, 420, false⟩, ⟨264, 220, 420, false⟩] with
    bird := { x := 100, y := 402, velocity := 7, size := 25, rotation := 21 / 100 } }

/-- The loop iteration for pipe `p` in state `s` only advances the pipe: the moved pipe is
still on screen, does not collide and does not score. -/
@[reducible]
def onlyAdvanced (s : Game) (p : Pipe) : Prop :=
  ¬ (movedPipe s p).x + s.pipeWidth < 0 ∧
  checkCollision s s.bird (movedPipe s p) = false ∧
  ¬ (¬ (movedPipe s p).scored = true ∧ (movedPipe s p).x + s.pipeWidth < s.bird.x)

/-- The gameplay part of the state: everything except the particles, the screen shake, the
bird's rotation, the UI bookkeeping (`lastScore`, `lastDifficultyLevel`) and the stored
entry. -/
structure Gameplay where
  canvasWidth : ℕ
  canvasHeight : ℕ
  gameState : GameState
  gravity : ℚ
  jumpPower : ℚ
  pipeSpeed : ℚ
  pipeGap : ℚ
  pipeWidth : ℚ
  birdSize : ℚ
  maxVelocity : ℚ
  minVelocity : ℚ
  birdX : ℚ
  birdY : ℚ
  birdVelocity : ℚ
  birdBoxSize : ℚ
  pipes : List Pipe
  score : ℤ
  bestScore : ℤ
  gameSpeed : ℚ
  difficultyLevel : ℤ

/-- The gameplay part of a state. -/
def gameplay (s : Game) : Gameplay :=
  { canvasWidth := s.canvasWidth
    canvasHeight := s.canvasHeight
    gameState := s.gameState
    gravity := s.gravity
    jumpPower := s.jumpPower
    pipeSpeed := s.pipeSpeed
    pipeGap := s.pipeGap
    pipeWidth := s.pipeWidth
    birdSize := s.birdSize
    maxVelocity := s.maxVelocity
    minVelocity := s.minVelocity
    birdX := s.bird.x
    birdY := s.bird.y
    birdVelocity := s.bird.velocity
    birdBoxSize := s.bird.size
    pipes := s.pipes
    score := s.score
    bestScore := s.bestScore
    gameSpeed := s.gameSpeed
    difficultyLevel := s.difficultyLevel }

/-- The state `s` with its non-gameplay fields replaced. -/
def recolor (s : Game) (ps : List Particle) (shake rot : ℚ) (ls ld : ℤ) (st : Option ℤ) :
    Game :=
  { s with
    particles := ps
    screenShake := shake
    bird := { s.bird with rotation := rot }
    lastScore := ls
    lastDifficultyLevel := ld
    stored := st }


/-- The pipe loop of `update` run on the pipes `above` alone, from state `t` after `k`
random draws: what the loop does to the pipes it visits before it reaches the others. -/
def sweep (rnd : ℕ → ℚ) (k : ℕ) (t : Game) (above : List Pipe) : Game :=
  updatePipes rnd above.length k { t with pipes := above }

/-- The state in which the loop of `update` arrives below the pipes `above`, when `above`
are the last pipes of the list after the spawn test: the loop run on `above` alone. -/
def sweepAbove (rnd : ℕ → ℚ) (s : Game) (above : List Pipe) : Game :=
  sweep rnd (if needsPipe (updateShake (updateParticles (updateBird s))) then 1 else 0)
    (afterSpawn rnd s) above

/-- A playing state with score 7 and three pipes: in the next frame the pipe at index 2 is
only advanced, the pipe at index 1 scores (which raises the level and the pipe speed) and
the pipe at index 0 collides. -/
def mixedPipes : Game :=
  { startGame (constructor 150 360 640 none) with
    score := 7
    bird := { x := 100, y := 100, velocity := 0, size := 25, rotation := 0 }
    pipes := [⟨90, 300, 500, false⟩, ⟨40, 200, 400, false⟩, ⟨360, 220, 420, false⟩] }
/-! ## General lemmas about the operations -/

/-- Induction principle for the pipe loop: a property that survives a change of the pipe
list, `gameOver`, and a scoring event survives the whole loop. -/
theorem updatePipes_preserves (P : Game → Prop) (rnd : ℕ → ℚ)
    (hpipes : ∀ (s : Game) (ps : List Pipe), P s → P { s with pipes := ps })
    (hover : ∀ s : Game, P s → P (gameOver s))
    (hscore : ∀ (s : Game) (ps : List Pipe) (k : ℕ), P s →
      P (addScoreParticles rnd k
        (updateDifficulty { s with pipes := ps, score := s.score + 1 }))) :
    ∀ (n k : ℕ) (s : Game), P s → P (updatePipes rnd n k s) := by
  intro n
  induction n with
  | zero => intro k s hs; exact hs
  | succ i ih =>
    intro k s hs
    rw [updatePipes]
    cases hget : s.pipes.get? i with
    | none => exact ih k s hs
    | some pipe0 =>
      simp only []
      split_ifs with h1 h2 h3
      · exact ih _ _ (hpipes _ _ hs)
      · exact hover _ (hpipes _ _ hs)
      · exact ih _ _ (hscore s _ _ hs)
      · exact ih _ _ (hpipes _ _ hs)

/-- Induction principle for `update`: a property that survives the bird physics with the
cosmetic decay, a change of the pipe list, `gameOver` and a scoring event survives
`update`. -/
theorem update_preserves (P : Game → Prop) (rnd : ℕ → ℚ) (deltaTime : ℚ)
    (hbird : ∀ s : Game, P s → P (updateShake (updateParticles (updateBird s))))
    (hpipes : ∀ (s : Game) (ps : List Pipe), P s → P { s with pipes := ps })
    (hover : ∀ s : Game, P s → P (gameOver s))
    (hscore : ∀ (s : Game) (ps : List Pipe) (k : ℕ), P s →
      P (addScoreParticles rnd k
        (updateDifficulty { s with pipes := ps, score := s.score + 1 })))
    (s : Game) (hs : P s) : P (update rnd deltaTime s) := by
  simp only [update]
  split_ifs with h1 h2 h3
  · exact hs
  · exact hover _ (hbird _ hs)
  · exact updatePipes_preserves P rnd hpipes hover hscore _ _ _ (hpipes _ _ (hbird _ hs))
  · exact updatePipes_preserves P rnd hpipes hover hscore _ _ _ (hbird _ hs)


theorem updateShake_eq (s : Game) : ∃ sh : ℚ, updateShake s = { s with screenShake := sh } := by
  unfold updateShake
  split_ifs
  · exact ⟨_, rfl⟩
  · exact ⟨s.screenShake, rfl⟩

theorem gameOver_eq (s : Game) : ∃ (b : ℤ) (st : Option ℤ),
    gameOver s = { s with gameState := GameState.gameOver, bestScore := b, stored := st } := by
  unfold gameOver
  split_ifs
  · exact ⟨_, _, rfl⟩
  · exact ⟨s.bestScore, s.stored, rfl⟩

theorem updateDifficulty_eq (s : Game) : ∃ (l : ℤ) (sp gap g sh : ℚ),
    updateDifficulty s = { s with difficultyLevel := l, pipeSpeed := sp, pipeGap := gap,
                                  gravity := g, screenShake := sh } := by
  simp only [updateDifficulty]
  split_ifs
  · exact ⟨_, _, _, _, _, rfl⟩
  · exact ⟨_, _, _, _, _, rfl⟩
  · exact ⟨_, _, _, _, _, rfl⟩
  · exact ⟨_, _, _, _, s.screenShake, rfl⟩

theorem velocityInv_gameOver (s : Game) (h : VelocityInv s) : VelocityInv (gameOver s) := by
  obtain ⟨b, st, e⟩ := gameOver_eq s
  rw [e]; exact h

theorem velocityInv_score (rnd : ℕ → ℚ) (s : Game) (ps : List Pipe) (k : ℕ)
    (h : VelocityInv s) :
    VelocityInv (addScoreParticles rnd k
      (updateDifficulty { s with pipes := ps, score := s.score + 1 })) := by
  obtain ⟨l, sp, gap, g, sh, e⟩ :=
    updateDifficulty_eq { s with pipes := ps, score := s.score + 1 }
  rw [e]; exact h

theorem velocityInv_bird (s : Game) (h : VelocityInv s) :
    VelocityInv (updateShake (updateParticles (updateBird s))) := by
  obtain ⟨sh, e⟩ := updateShake_eq (updateParticles (updateBird s))
  rw [e]
  obtain ⟨h1, h2, h3, -, -⟩ := h
  refine ⟨h1, h2, h3, ?_, ?_⟩
  · show -7 ≤ max s.minVelocity (min s.maxVelocity (s.bird.velocity + s.gravity))
    rw [h2]; exact le_max_left _ _
  · show max s.minVelocity (min s.maxVelocity (s.bird.velocity + s.gravity)) ≤ 7
    rw [h2, h3]
    exact max_le (by norm_num) (min_le_left _ _)

theorem velocityInv_update (rnd : ℕ → ℚ) (dt : ℚ) (s : Game) (h : VelocityInv s) :
    VelocityInv (update rnd dt s) :=
  update_preserves VelocityInv rnd dt velocityInv_bird (fun _ _ h => h) velocityInv_gameOver
    (velocityInv_score rnd) s h

theorem velocityInv_startGame (s : Game) (h : VelocityInv s) : VelocityInv (startGame s) := by
  obtain ⟨h1, h2, h3, -, -⟩ := h
  exact ⟨h1, h2, h3, by show (-7 : ℚ) ≤ 0; norm_num, by show (0 : ℚ) ≤ 7; norm_num⟩

theorem velocityInv_jump (rnd : ℕ → ℚ) (s : Game) (h : VelocityInv s) :
    VelocityInv (jump rnd s) := by
  simp only [jump]
  split_ifs with p q
  · obtain ⟨h1, h2, h3, h4, h5⟩ := h
    refine ⟨h1, h2, h3, ?_, ?_⟩
    · show -7 ≤ max s.jumpPower (s.bird.velocity + s.jumpPower)
      rw [h1]; exact le_trans (by norm_num) (le_max_left _ _)
    · show max s.jumpPower (s.bird.velocity + s.jumpPower) ≤ 7
      rw [h1]; exact max_le (by norm_num) (by linarith)
  · exact velocityInv_startGame s h
  · exact h

theorem velocityInv_of_reachable {s : Game} (h : Reachable s) : VelocityInv s := by
  induction h with
  | init h0 w ht item =>
    refine ⟨rfl, rfl, rfl, ?_, ?_⟩
    · show (-7 : ℚ) ≤ 0; norm_num
    · show (0 : ℚ) ≤ 7; norm_num
  | startGame _ ih => exact velocityInv_startGame _ ih
  | jump rnd _ ih => exact velocityInv_jump rnd _ ih
  | pauseGame _ ih =>
    rename_i t
    unfold pauseGame
    split_ifs
    · exact ih
    · exact ih
  | resumeGame _ ih =>
    rename_i t
    unfold resumeGame
    split_ifs
    · exact ih
    · exact ih
  | update rnd dt _ ih => exact velocityInv_update rnd dt _ ih


theorem reachable_sampleRun : Reachable sampleRun :=
  Reachable.update _ _ (Reachable.jump _ (Reachable.startGame (Reachable.init 150 360 640 none)))

theorem newDifficultyLevel_mono {a b : ℤ} (h : a ≤ b) :
    newDifficultyLevel a ≤ newDifficultyLevel b := by
  unfold newDifficultyLevel
  have : (a : ℚ) / 8 ≤ (b : ℚ) / 8 := by
    have : (a : ℚ) ≤ (b : ℚ) := by exact_mod_cast h
    linarith
  linarith [Int.floor_le_floor this]

theorem updateDifficulty_score (s : Game) : (updateDifficulty s).score = s.score := by
  obtain ⟨l, sp, gap, g, sh, e⟩ := updateDifficulty_eq s
  rw [e]

theorem updateDifficulty_difficultyLevel (s : Game) :
    (updateDifficulty s).difficultyLevel =
      if newDifficultyLevel s.score > s.difficultyLevel then newDifficultyLevel s.score
      else s.difficultyLevel := by
  simp only [updateDifficulty]
  split_ifs <;> rfl

theorem levelInv_gameOver (s : Game) (h : LevelInv s) : LevelInv (gameOver s) := by
  obtain ⟨b, st, e⟩ := gameOver_eq s
  rw [e]; exact h

theorem levelInv_bird (s : Game) (h : LevelInv s) :
    LevelInv (updateShake (updateParticles (updateBird s))) := by
  obtain ⟨sh, e⟩ := updateShake_eq (updateParticles (updateBird s))
  rw [e]; exact h

theorem levelInv_score (rnd : ℕ → ℚ) (s : Game) (ps : List Pipe) (k : ℕ) (h : LevelInv s) :
    LevelInv (addScoreParticles rnd k
      (updateDifficulty { s with pipes := ps, score := s.score + 1 })) := by
  show (updateDifficulty { s with pipes := ps, score := s.score + 1 }).difficultyLevel =
    newDifficultyLevel (updateDifficulty { s with pipes := ps, score := s.score + 1 }).score
  rw [updateDifficulty_score, updateDifficulty_difficultyLevel]
  show (if newDifficultyLevel (s.score + 1) > s.difficultyLevel then
    newDifficultyLevel (s.score + 1) else s.difficultyLevel) = newDifficultyLevel (s.score + 1)
  split_ifs with hgt
  · rfl
  · have h1 : newDifficultyLevel s.score ≤ newDifficultyLevel (s.score + 1) :=
      newDifficultyLevel_mono (by linarith)
    have h2 : s.difficultyLevel = newDifficultyLevel s.score := h
    linarith

theorem levelInv_update (rnd : ℕ → ℚ) (dt : ℚ) (s : Game) (h : LevelInv s) :
    LevelInv (update rnd dt s) :=
  update_preserves LevelInv rnd dt levelInv_bird (fun _ _ h => h) levelInv_gameOver
    (levelInv_score rnd) s h

theorem newDifficultyLevel_zero : newDifficultyLevel 0 = 1 := by
  simp [newDifficultyLevel]

theorem levelInv_startGame (s : Game) : LevelInv (startGame s) := by
  show (1 : ℤ) = newDifficultyLevel 0
  rw [newDifficultyLevel_zero]

theorem levelInv_jump (rnd : ℕ → ℚ) (s : Game) (h : LevelInv s) : LevelInv (jump rnd s) := by
  simp only [jump]
  split_ifs with p q
  · exact h
  · exact levelInv_startGame s
  · exact h

theorem levelInv_of_reachable {s : Game} (h : Reachable s) : LevelInv s := by
  induction h with
  | init h0 w ht item =>
    show (1 : ℤ) = newDifficultyLevel 0
    rw [newDifficultyLevel_zero]
  | startGame _ _ => exact levelInv_startGame _
  | jump rnd _ ih => exact levelInv_jump rnd _ ih
  | pauseGame _ ih =>
    unfold pauseGame
    split_ifs
    · exact ih
    · exact ih
  | resumeGame _ ih =>
    unfold resumeGame
    split_ifs
    · exact ih
    · exact ih
  | update rnd dt _ ih => exact levelInv_update rnd dt _ ih

/-- Case analysis of the pipe loop: if `Q` survives a change of the pipe list and a scoring
event, the loop either runs to its end in a `Q`-state or returns `gameOver t` for a
`Q`-state `t`. -/
theorem updatePipes_cases (Q : Game → Prop) (rnd : ℕ → ℚ)
    (hpipes : ∀ (s : Game) (ps : List Pipe), Q s → Q { s with pipes := ps })
    (hscore : ∀ (s : Game) (ps : List Pipe) (k : ℕ), Q s →
      Q (addScoreParticles rnd k
        (updateDifficulty { s with pipes := ps, score := s.score + 1 }))) :
    ∀ (n k : ℕ) (s : Game), Q s →
      Q (updatePipes rnd n k s) ∨ ∃ t : Game, Q t ∧ updatePipes rnd n k s = gameOver t := by
  intro n
  induction n with
  | zero => intro k s hs; exact Or.inl hs
  | succ i ih =>
    intro k s hs
    rw [updatePipes]
    cases hget : s.pipes.get? i with
    | none => exact ih k s hs
    | some pipe0 =>
      simp only []
      split_ifs with h1 h2 h3
      · exact ih _ _ (hpipes _ _ hs)
      · exact Or.inr ⟨_, hpipes _ _ hs, rfl⟩
      · exact ih _ _ (hscore s _ _ hs)
      · exact ih _ _ (hpipes _ _ hs)

/-- Case analysis of `update`: outside `playing` nothing happens; otherwise the step either
completes in a `Q`-state or ends in `gameOver t` for a `Q`-state `t`. -/
theorem update_cases (Q : Game → Prop) (rnd : ℕ → ℚ) (deltaTime : ℚ)
    (hbird : ∀ s : Game, Q s → Q (updateShake (updateParticles (updateBird s))))
    (hpipes : ∀ (s : Game) (ps : List Pipe), Q s → Q { s with pipes := ps })
    (hscore : ∀ (s : Game) (ps : List Pipe) (k : ℕ), Q s →
      Q (addScoreParticles rnd k
        (updateDifficulty { s with pipes := ps, score := s.score + 1 })))
    (s : Game) (hs : Q s) :
    Q (update rnd deltaTime s) ∨ ∃ t : Game, Q t ∧ update rnd deltaTime s = gameOver t := by
  simp only [update]
  split_ifs with h1 h2 h3
  · exact Or.inl hs
  · exact Or.inr ⟨_, hbird _ hs, rfl⟩
  · exact updatePipes_cases Q rnd hpipes hscore _ _ _ (hpipes _ _ (hbird _ hs))
  · exact updatePipes_cases Q rnd hpipes hscore _ _ _ (hbird _ hs)

theorem pauseGame_eq (s : Game) : ∃ g : GameState, pauseGame s = { s with gameState := g } := by
  unfold pauseGame
  split_ifs
  · exact ⟨_, rfl⟩
  · exact ⟨s.gameState, rfl⟩

theorem resumeGame_eq (s : Game) :
    ∃ g : GameState, resumeGame s = { s with gameState := g } := by
  unfold resumeGame
  split_ifs
  · exact ⟨_, rfl⟩
  · exact ⟨s.gameState, rfl⟩

theorem jump_playing (rnd : ℕ → ℚ) (s : Game) (h : s.gameState = GameState.playing) :
    jump rnd s = showJumpFeedback (addJumpParticles rnd { s with bird := { s.bird with
      velocity := max s.jumpPower (s.bird.velocity + s.jumpPower), rotation := -0.2 } }) := by
  simp only [jump, h, if_true]

theorem jump_not_start (rnd : ℕ → ℚ) (s : Game) (h : s.gameState ≠ GameState.start) :
    ∃ (b : Bird) (ps : List Particle) (sh : ℚ),
      jump rnd s = { s with bird := b, particles := ps, screenShake := sh } := by
  simp only [jump]
  split_ifs with p
  · exact ⟨_, _, _, rfl⟩
  · exact ⟨s.bird, s.particles, s.screenShake, rfl⟩

theorem score_le_update (rnd : ℕ → ℚ) (dt : ℚ) (c : ℤ) (s : Game) (h : c ≤ s.score) :
    c ≤ (update rnd dt s).score := by
  refine update_preserves (fun t => c ≤ t.score) rnd dt ?_ ?_ ?_ ?_ s h
  · intro t ht
    obtain ⟨sh, e⟩ := updateShake_eq (updateParticles (updateBird t))
    rw [e]; exact ht
  · intro t ps ht; exact ht
  · intro t ht
    obtain ⟨b, st, e⟩ := gameOver_eq t
    rw [e]; exact ht
  · intro t ps k ht
    show c ≤ (updateDifficulty { t with pipes := ps, score := t.score + 1 }).score
    rw [updateDifficulty_score]
    show c ≤ t.score + 1
    linarith

theorem score_nonneg_of_reachable {s : Game} (h : Reachable s) : 0 ≤ s.score := by
  induction h with
  | init h0 w ht item => exact le_refl _
  | startGame _ _ => exact le_refl _
  | jump rnd _ ih =>
    rename_i t _
    by_cases hs : t.gameState = GameState.start
    · simp only [jump, hs]
      exact le_refl _
    · obtain ⟨b, ps, sh, e⟩ := jump_not_start rnd t hs
      rw [e]; exact ih
  | pauseGame _ ih =>
    rename_i t _
    obtain ⟨g, e⟩ := pauseGame_eq t
    rw [e]; exact ih
  | resumeGame _ ih =>
    rename_i t _
    obtain ⟨g, e⟩ := resumeGame_eq t
    rw [e]; exact ih
  | update rnd dt _ ih => exact score_le_update rnd dt 0 _ ih

theorem gameOver_bestScore (s : Game) : (gameOver s).bestScore = max s.bestScore s.score := by
  unfold gameOver
  split_ifs with h
  · exact (max_eq_right (le_of_lt h)).symm
  · exact (max_eq_left (not_lt.mp h)).symm

theorem gameOver_stored (s : Game) :
    (gameOver s).stored = if s.score > s.bestScore then some s.score else s.stored := by
  unfold gameOver
  split_ifs <;> rfl

theorem gameOver_gameState (s : Game) : (gameOver s).gameState = GameState.gameOver := by
  unfold gameOver
  split_ifs <;> rfl

theorem gameOver_score (s : Game) : (gameOver s).score = s.score := by
  unfold gameOver
  split_ifs <;> rfl

theorem gameOver_pipes (s : Game) : (gameOver s).pipes = s.pipes := by
  unfold gameOver
  split_ifs <;> rfl

/-- What `update` does to the best score and the stored entry: either both are untouched
and the state is still `playing` if it was, or the step returned `gameOver t` for a state
`t` that still had both. -/
theorem update_bestScore_cases (rnd : ℕ → ℚ) (dt : ℚ) (s : Game) :
    ((update rnd dt s).gameState = s.gameState ∧ (update rnd dt s).bestScore = s.bestScore ∧
      (update rnd dt s).stored = s.stored) ∨
    ∃ t : Game, (t.gameState = s.gameState ∧ t.bestScore = s.bestScore ∧ t.stored = s.stored) ∧
      update rnd dt s = gameOver t := by
  refine update_cases
    (fun t => t.gameState = s.gameState ∧ t.bestScore = s.bestScore ∧ t.stored = s.stored)
    rnd dt ?_ ?_ ?_ s ⟨rfl, rfl, rfl⟩
  · intro t ht
    obtain ⟨sh, e⟩ := updateShake_eq (updateParticles (updateBird t))
    rw [e]; exact ht
  · intro t ps ht; exact ht
  · intro t ps k ht
    obtain ⟨l, sp, gap, g, sh, e⟩ :=
      updateDifficulty_eq { t with pipes := ps, score := t.score + 1 }
    show (updateDifficulty { t with pipes := ps, score := t.score + 1 }).gameState = _ ∧
      (updateDifficulty { t with pipes := ps, score := t.score + 1 }).bestScore = _ ∧
      (updateDifficulty { t with pipes := ps, score := t.score + 1 }).stored = _
    rw [e]; exact ht

theorem map_gapOf_set (l : List Pipe) (i : ℕ) (p0 p : Pipe) (h : l.get? i = some p0)
    (hp : gapOf p = gapOf p0) : (l.set i p).map gapOf = l.map gapOf := by
  induction l generalizing i with
  | nil => rfl
  | cons a l ih =>
    cases i with
    | zero =>
      simp only [List.get?_cons_zero, Option.some.injEq] at h
      simp only [List.set_cons_zero, List.map_cons, hp, h]
    | succ j =>
      simp only [List.get?_cons_succ] at h
      simp only [List.set_cons_succ, List.map_cons, ih j h]

theorem map_gapOf_eraseIdx_sublist (l : List Pipe) (i : ℕ) :
    ((l.eraseIdx i).map gapOf).Sublist (l.map gapOf) :=
  (List.eraseIdx_sublist l i).map gapOf

theorem updateDifficulty_pipes (s : Game) : (updateDifficulty s).pipes = s.pipes := by
  obtain ⟨l, sp, gap, g, sh, e⟩ := updateDifficulty_eq s
  rw [e]

/-- The pipe loop keeps the gaps: the gaps of the pipes it leaves are, in order, gaps of
the pipes it started with. -/
theorem updatePipes_gaps (rnd : ℕ → ℚ) :
    ∀ (n k : ℕ) (s : Game),
      ((updatePipes rnd n k s).pipes.map gapOf).Sublist (s.pipes.map gapOf) := by
  intro n
  induction n with
  | zero => intro k s; exact List.Sublist.refl _
  | succ i ih =>
    intro k s
    rw [updatePipes]
    cases hget : s.pipes.get? i with
    | none => exact ih k s
    | some pipe0 =>
      have hset : (s.pipes.set i { pipe0 with x := pipe0.x - s.pipeSpeed * s.gameSpeed }).map
          gapOf = s.pipes.map gapOf := map_gapOf_set _ _ pipe0 _ hget rfl
      have hset2 : ((s.pipes.set i { pipe0 with x := pipe0.x - s.pipeSpeed * s.gameSpeed }).set i
          { x := pipe0.x - s.pipeSpeed * s.gameSpeed, topHeight := pipe0.topHeight,
            bottomY := pipe0.bottomY, scored := true }).map gapOf = s.pipes.map gapOf := by
        rw [List.set_set]
        exact map_gapOf_set _ _ pipe0 _ hget rfl
      simp only []
      split_ifs with h1 h2 h3
      · refine (ih _ _).trans ?_
        show ((List.eraseIdx _ i).map gapOf).Sublist _
        rw [← hset]
        exact map_gapOf_eraseIdx_sublist _ i
      · rw [gameOver_pipes]
        show (List.map gapOf (s.pipes.set i _)).Sublist _
        rw [hset]
      · refine (ih _ _).trans ?_
        show (List.map gapOf (updateDifficulty _).pipes).Sublist _
        rw [updateDifficulty_pipes]
        show (List.map gapOf ((s.pipes.set i _).set i _)).Sublist _
        rw [hset2]
      · refine (ih _ _).trans ?_
        show (List.map gapOf (s.pipes.set i _)).Sublist _
        rw [hset]

theorem generatePipe_pipes (rnd : ℕ → ℚ) (k : ℕ) (s : Game) :
    (generatePipe rnd k s).pipes = s.pipes ++ [newPipe (rnd k) s] := rfl

theorem updateBird_cosmetic_pipes (s : Game) :
    (updateShake (updateParticles (updateBird s))).pipes = s.pipes := by
  obtain ⟨sh, e⟩ := updateShake_eq (updateParticles (updateBird s))
  rw [e]; rfl

theorem newPipe_cosmetic (r : ℚ) (s : Game) :
    newPipe r (updateShake (updateParticles (updateBird s))) = newPipe r s := by
  obtain ⟨sh, e⟩ := updateShake_eq (updateParticles (updateBird s))
  rw [e]; rfl

theorem afterSpawn_pipes (rnd : ℕ → ℚ) (s : Game) :
    (afterSpawn rnd s).pipes = s.pipes ∨
    (afterSpawn rnd s).pipes = s.pipes ++ [newPipe (rnd 0) s] := by
  unfold afterSpawn
  split_ifs
  · right
    rw [generatePipe_pipes, updateBird_cosmetic_pipes, newPipe_cosmetic]
  · left
    exact updateBird_cosmetic_pipes s

theorem update_playing (rnd : ℕ → ℚ) (dt : ℚ) (s : Game)
    (h : s.gameState = GameState.playing) :
    update rnd dt s =
      if (updateBird s).bird.y < 0 ∨ (updateBird s).bird.y > (s.canvasHeight : ℚ) - 50 then
        gameOver (updateShake (updateParticles (updateBird s)))
      else
        updatePipes rnd (afterSpawn rnd s).pipes.length
          (if needsPipe (updateShake (updateParticles (updateBird s))) then 1 else 0)
          (afterSpawn rnd s) := by
  obtain ⟨sh, e⟩ := updateShake_eq (updateParticles (updateBird s))
  have hy : (updateShake (updateParticles (updateBird s))).bird.y = (updateBird s).bird.y := by
    rw [e]; rfl
  have hc : (updateShake (updateParticles (updateBird s))).canvasHeight = s.canvasHeight := by
    rw [e]; rfl
  simp only [update, h, ne_eq, not_true_eq_false, if_false, hy, hc, afterSpawn]

theorem updateBird_cosmetic_score (s : Game) :
    (updateShake (updateParticles (updateBird s))).score = s.score ∧
    (updateShake (updateParticles (updateBird s))).bestScore = s.bestScore := by
  obtain ⟨sh, e⟩ := updateShake_eq (updateParticles (updateBird s))
  rw [e]; exact ⟨rfl, rfl⟩

theorem update_not_playing (rnd : ℕ → ℚ) (dt : ℚ) (s : Game)
    (h : s.gameState ≠ GameState.playing) : update rnd dt s = s := by
  simp only [update, ne_eq, h, not_false_eq_true, if_true]

theorem startGame_tunables (s : Game) :
    (startGame s).difficultyLevel = 1 ∧ (startGame s).pipeSpeed = s.pipeSpeed ∧
    (startGame s).pipeGap = s.pipeGap ∧ (startGame s).gravity = s.gravity :=
  ⟨rfl, rfl, rfl, rfl⟩

theorem startGame_gameState (s : Game) : (startGame s).gameState = GameState.playing := rfl

/-! ## A first run that reaches level 2, ends, and is restarted -/

theorem reachable_iterate_update (rnd : ℕ → ℚ) (dt : ℚ) (n : ℕ) {s : Game}
    (h : Reachable s) : Reachable ((update rnd dt)^[n] s) := by
  induction n generalizing s with
  | zero => exact h
  | succ n ih => exact ih (Reachable.update rnd dt h)

theorem reachable_wingbeat {s : Game} (h : Reachable s) : Reachable (wingbeat s) :=
  reachable_iterate_update _ _ _ (Reachable.jump _ (Reachable.jump _ h))

theorem reachable_wingbeats (n : ℕ) {s : Game} (h : Reachable s) :
    Reachable (wingbeat^[n] s) := by
  induction n generalizing s with
  | zero => exact h
  | succ n ih => exact ih (reachable_wingbeat h)

/-- The first run after 2 wing beats. -/
theorem reachable_cruise_2 :
    Reachable (cruise 0 [⟨1332 / 5, 220, 420, false⟩]) := by
  have e : wingbeat^[2] (startGame (constructor 150 360 640 none)) =
      cruise 0 [⟨1332 / 5, 220, 420, false⟩] := by
    decide!
  rw [← e]
  exact reachable_wingbeats 2 (Reachable.startGame (Reachable.init 150 360 640 none))

/-- The first run after 4 wing beats. -/
theorem reachable_cruise_4 :
    Reachable (cruise 0 [⟨864 / 5, 220, 420, false⟩]) := by
  have e : wingbeat^[2] (cruise 0 [⟨1332 / 5, 220, 420, false⟩]) =
      cruise 0 [⟨864 / 5, 220, 420, false⟩] := by
    decide!
  rw [← e]
  exact reachable_wingbeats 2 reachable_cruise_2

/-- The first run after 6 wing beats. -/
theorem reachable_cruise_6 :
    Reachable (cruise 0 [⟨396 / 5, 220, 420, false⟩, ⟨1398 / 5, 220, 420, false⟩]) := by
  have e : wingbeat^[2] (cruise 0 [⟨864 / 5, 220, 420, false⟩]) =
      cruise 0 [⟨396 / 5, 220, 420, false⟩, ⟨1398 / 5, 220, 420, false⟩] := by
    decide!
  rw [← e]
  exact reachable_wingbeats 2 reachable_cruise_4

/-- The first run after 8 wing beats. -/
theorem reachable_cruise_8 :
    Reachable (cruise 1 [⟨-72 / 5, 220, 420, true⟩, ⟨186, 220, 420, false⟩]) := by
  have e : wingbeat^[2] (cruise 0 [⟨396 / 5, 220, 420, false⟩, ⟨1398 / 5, 220, 420, false⟩]) =
      cruise 1 [⟨-72 / 5, 220, 420, true⟩, ⟨186, 220, 420, false⟩] := by
    decide!
  rw [← e]
  exact reachable_wingbeats 2 reachable_cruise_6

/-- The first run after 10 wing beats. -/
theorem reachable_cruise_10 :
    Reachable (cruise 1 [⟨462 / 5, 220, 420, false⟩, ⟨1464 / 5, 220, 420, false⟩]) := by
  have e : wingbeat^[2] (cruise 1 [⟨-72 / 5, 220, 420, true⟩, ⟨186, 220, 420, false⟩]) =
      cruise 1 [⟨462 / 5, 220, 420, false⟩, ⟨1464 / 5, 220, 420, false⟩] := by
    decide!
  rw [← e]
  exact reachable_wingbeats 2 reachable_cruise_8

/-- The first run after 12 wing beats. -/
theorem reachable_cruise_12 :
    Reachable (cruise 2 [⟨-6 / 5, 220, 420, true⟩, ⟨996 / 5, 220, 420, false⟩]) := by
  have e : wingbeat^[2] (cruise 1 [⟨462 / 5, 220, 420, false⟩, ⟨1464 / 5, 220, 420, false⟩]) =
      cruise 2 [⟨-6 / 5, 220, 420, true⟩, ⟨996 / 5, 220, 420, false⟩] := by
    decide!
  rw [← e]
  exact reachable_wingbeats 2 reachable_cruise_10

/-- The first run after 14 wing beats. -/
theorem reachable_cruise_14 :
    Reachable (cruise 2 [⟨528 / 5, 220, 420, false⟩, ⟨306, 220, 420, false⟩]) := by
  have e : wingbeat^[2] (cruise 2 [⟨-6 / 5, 220, 420, true⟩, ⟨996 / 5, 220, 420, false⟩]) =
      cruise 2 [⟨528 / 5, 220, 420, false⟩, ⟨306, 220, 420, false⟩] := by
    decide!
  rw [← e]
  exact reachable_wingbeats 2 reachable_cruise_12

/-- The first run after 15 wing beats. -/
theorem reachable_cruise_15 :
    Reachable (cruise 2 [⟨294 / 5, 220, 420, false⟩, ⟨1296 / 5, 220, 420, false⟩]) := by
  have e : wingbeat^[1] (cruise 2 [⟨528 / 5, 220, 420, false⟩, ⟨306, 220, 420, false⟩]) =
      cruise 2 [⟨294 / 5, 220, 420, false⟩, ⟨1296 / 5, 220, 420, false⟩] := by
    decide!
  rw [← e]
  exact reachable_wingbeats 1 reachable_cruise_14

/-- The first run after 17 wing beats. -/
theorem reachable_cruise_17 :
    Reachable (cruise 3 [⟨-174 / 5, 220, 420, true⟩, ⟨828 / 5, 220, 420, false⟩]) := by
  have e : wingbeat^[2] (cruise 2 [⟨294 / 5, 220, 420, false⟩, ⟨1296 / 5, 220, 420, false⟩]) =
      cruise 3 [⟨-174 / 5, 220, 420, true⟩, ⟨828 / 5, 220, 420, false⟩] := by
    decide!
  rw [← e]
  exact reachable_wingbeats 2 reachable_cruise_15

/-- The first run after 19 wing beats. -/
theorem reachable_cruise_19 :
    Reachable (cruise 3 [⟨72, 220, 420, false⟩, ⟨1362 / 5, 220, 420, false⟩]) := by
  have e : wingbeat^[2] (cruise 3 [⟨-174 / 5, 220, 420, true⟩, ⟨828 / 5, 220, 420, false⟩]) =
      cruise 3 [⟨72, 220, 420, false⟩, ⟨1362 / 5, 220, 420, false⟩] := by
    decide!
  rw [← e]
  exact reachable_wingbeats 2 reachable_cruise_17

/-- The first run after 21 wing beats. -/
theorem reachable_cruise_21 :
    Reachable (cruise 4 [⟨-108 / 5, 220, 420, true⟩, ⟨894 / 5, 220, 420, false⟩]) := by
  have e : wingbeat^[2] (cruise 3 [⟨72, 220, 420, false⟩, ⟨1362 / 5, 220, 420, false⟩]) =
      cruise 4 [⟨-108 / 5, 220, 420, true⟩, ⟨894 / 5, 220, 420, false⟩] := by
    decide!
  rw [← e]
  exact reachable_wingbeats 2 reachable_cruise_19

/-- The first run after 23 wing beats. -/
theorem reachable_cruise_23 :
    Reachable (cruise 4 [⟨426 / 5, 220, 420, false⟩, ⟨1428 / 5, 220, 420, false⟩]) := by
  have e : wingbeat^[2] (cruise 4 [⟨-108 / 5, 220, 420, true⟩, ⟨894 / 5, 220, 420, false⟩]) =
      cruise 4 [⟨426 / 5, 220, 420, false⟩, ⟨1428 / 5, 220, 420, false⟩] := by
    decide!
  rw [← e]
  exact reachable_wingbeats 2 reachable_cruise_21

/-- The first run after 25 wing beats. -/
theorem reachable_cruise_25 :
    Reachable (cruise 5 [⟨-42 / 5, 220, 420, true⟩, ⟨192, 220, 420, false⟩]) := by
  have e : wingbeat^[2] (cruise 4 [⟨426 / 5, 220, 420, false⟩, ⟨1428 / 5, 220, 420, false⟩]) =
      cruise 5 [⟨-42 / 5, 220, 420, true⟩, ⟨192, 220, 420, false⟩] := by
    decide!
  rw [← e]
  exact reachable_wingbeats 2 reachable_cruise_23

/-- The first run after 27 wing beats. -/
theorem reachable_cruise_27 :
    Reachable (cruise 5 [⟨492 / 5, 220, 420, false⟩, ⟨1494 / 5, 220, 420, false⟩]) := by
  have e : wingbeat^[2] (cruise 5 [⟨-42 / 5, 220, 420, true⟩, ⟨192, 220, 420, false⟩]) =
      cruise 5 [⟨492 / 5, 220, 420, false⟩, ⟨1494 / 5, 220, 420, false⟩] := by
    decide!
  rw [← e]
  exact reachable_wingbeats 2 reachable_cruise_25

/-- The first run after 29 wing beats. -/
theorem reachable_cruise_29 :
    Reachable (cruise 6 [⟨24 / 5, 220, 420, true⟩, ⟨1026 / 5, 220, 420, false⟩]) := by
  have e : wingbeat^[2] (cruise 5 [⟨492 / 5, 220, 420, false⟩, ⟨1494 / 5, 220, 420, false⟩]) =
      cruise 6 [⟨24 / 5, 220, 420, true⟩, ⟨1026 / 5, 220, 420, false⟩] := by
    decide!
  rw [← e]
  exact reachable_wingbeats 2 reachable_cruise_27

/-- The first run after 31 wing beats. -/
theorem reachable_cruise_31 :
    Reachable (cruise 6 [⟨558 / 5, 220, 420, false⟩, ⟨312, 220, 420, false⟩]) := by
  have e : wingbeat^[2] (cruise 6 [⟨24 / 5, 220, 420, true⟩, ⟨1026 / 5, 220, 420, false⟩]) =
      cruise 6 [⟨558 / 5, 220, 420, false⟩, ⟨312, 220, 420, false⟩] := by
    decide!
  rw [← e]
  exact reachable_wingbeats 2 reachable_cruise_29

/-- The first run after 32 wing beats. -/
theorem reachable_cruise_32 :
    Reachable (cruise 6 [⟨324 / 5, 220, 420, false⟩, ⟨1326 / 5, 220, 420, false⟩]) := by
  have e : wingbeat^[1] (cruise 6 [⟨558 / 5, 220, 420, false⟩, ⟨312, 220, 420, false⟩]) =
      cruise 6 [⟨324 / 5, 220, 420, false⟩, ⟨1326 / 5, 220, 420, false⟩] := by
    decide!
  rw [← e]
  exact reachable_wingbeats 1 reachable_cruise_31

/-- The first run after 34 wing beats. -/
theorem reachable_cruise_34 :
    Reachable (cruise 7 [⟨-144 / 5, 220, 420, true⟩, ⟨858 / 5, 220, 420, false⟩]) := by
  have e : wingbeat^[2] (cruise 6 [⟨324 / 5, 220, 420, false⟩, ⟨1326 / 5, 220, 420, false⟩]) =
      cruise 7 [⟨-144 / 5, 220, 420, true⟩, ⟨858 / 5, 220, 420, false⟩] := by
    decide!
  rw [← e]
  exact reachable_wingbeats 2 reachable_cruise_32

/-- The first run after 36 wing beats. -/
theorem reachable_cruise_36 :
    Reachable (cruise 7 [⟨78, 220, 420, false⟩, ⟨1392 / 5, 220, 420, false⟩]) := by
  have e : wingbeat^[2] (cruise 7 [⟨-144 / 5, 220, 420, true⟩, ⟨858 / 5, 220, 420, false⟩]) =
      cruise 7 [⟨78, 220, 420, false⟩, ⟨1392 / 5, 220, 420, false⟩] := by
    decide!
  rw [← e]
  exact reachable_wingbeats 2 reachable_cruise_34

theorem reachable_endedRun : Reachable endedRun :=
  reachable_iterate_update _ _ _ (Reachable.jump _ (Reachable.jump _ reachable_cruise_36))

theorem reachable_restartedRun : Reachable restartedRun :=
  Reachable.startGame reachable_endedRun

theorem endedRun_eq : endedRun = endedRunState := by
  decide!

/-! ## Lemmas for the control events, the pipe loop and the cosmetic state -/

theorem pauseGame_not_playing (s : Game) (h : s.gameState ≠ GameState.playing) :
    pauseGame s = s := by
  simp only [pauseGame, h, if_false]

theorem resumeGame_not_paused (s : Game) (h : s.gameState ≠ GameState.paused) :
    resumeGame s = s := by
  simp only [resumeGame, h, if_false]

theorem jump_idle (rnd : ℕ → ℚ) (s : Game) (h1 : s.gameState ≠ GameState.playing)
    (h2 : s.gameState ≠ GameState.start) : jump rnd s = s := by
  simp only [jump, h1, h2, if_false]

theorem updatePipes_bird (rnd : ℕ → ℚ) (n k : ℕ) (s : Game) :
    (updatePipes rnd n k s).bird = s.bird := by
  refine updatePipes_preserves (fun t => t.bird = s.bird) rnd ?_ ?_ ?_ n k s rfl
  · intro t ps ht; exact ht
  · intro t ht
    obtain ⟨b, st, e⟩ := gameOver_eq t
    rw [e]; exact ht
  · intro t ps k ht
    obtain ⟨l, sp, gap, g, sh, e⟩ :=
      updateDifficulty_eq { t with pipes := ps, score := t.score + 1 }
    show (updateDifficulty { t with pipes := ps, score := t.score + 1 }).bird = s.bird
    rw [e]; exact ht

theorem afterSpawn_bird (rnd : ℕ → ℚ) (s : Game) :
    (afterSpawn rnd s).bird = (updateBird s).bird := by
  obtain ⟨sh, e⟩ := updateShake_eq (updateParticles (updateBird s))
  unfold afterSpawn
  split_ifs
  · show (updateShake (updateParticles (updateBird s))).bird = _
    rw [e]; rfl
  · rw [e]; rfl

theorem update_bird (rnd : ℕ → ℚ) (dt : ℚ) (s : Game)
    (h : s.gameState = GameState.playing) :
    (update rnd dt s).bird = (updateBird s).bird := by
  rw [update_playing rnd dt s h]
  by_cases hb : (updateBird s).bird.y < 0 ∨ (updateBird s).bird.y > (s.canvasHeight : ℚ) - 50
  · rw [if_pos hb]
    obtain ⟨b, st, e⟩ := gameOver_eq (updateShake (updateParticles (updateBird s)))
    obtain ⟨sh, e2⟩ := updateShake_eq (updateParticles (updateBird s))
    rw [e, e2]; rfl
  · rw [if_neg hb, updatePipes_bird, afterSpawn_bird]

theorem pauseGame_playing (s : Game) (h : s.gameState = GameState.playing) :
    pauseGame s = { s with gameState := GameState.paused } := by
  simp only [pauseGame, h, if_true]

theorem resumeGame_pauseGame (s : Game) (h : s.gameState = GameState.playing) :
    resumeGame (pauseGame s) = s := by
  rw [pauseGame_playing s h]
  cases s
  simp only [resumeGame, if_true]
  simp only at h
  rw [h]

theorem pipeSpeedAt_mono {a b : ℤ} (h : a ≤ b) : pipeSpeedAt a ≤ pipeSpeedAt b := by
  have hc : (a : ℚ) ≤ (b : ℚ) := by exact_mod_cast h
  unfold pipeSpeedAt
  exact min_le_min (by linarith) (le_refl _)

theorem gravityAt_mono {a b : ℤ} (h : a ≤ b) : gravityAt a ≤ gravityAt b := by
  have hc : (a : ℚ) ≤ (b : ℚ) := by exact_mod_cast h
  unfold gravityAt
  exact min_le_min (by linarith) (le_refl _)

theorem pipeGapAt_anti {a b : ℤ} (h : a ≤ b) : pipeGapAt b ≤ pipeGapAt a := by
  have hc : (a : ℚ) ≤ (b : ℚ) := by exact_mod_cast h
  unfold pipeGapAt
  exact max_le_max (by linarith) (le_refl _)

theorem reachable_lowWindow : Reachable lowWindow :=
  Reachable.startGame (Reachable.init 150 360 300 none)

theorem needsPipe_iff (s : Game) :
    needsPipe s = true ↔
      s.pipes = [] ∨ ∃ last : Pipe, s.pipes.getLast? = some last ∧
        last.x < (s.canvasWidth : ℚ) - 200 := by
  unfold needsPipe
  cases hl : s.pipes.getLast? with
  | none =>
    simp only [true_iff]
    left
    exact List.getLast?_eq_none_iff.mp hl
  | some last =>
    simp only [decide_eq_true_eq, Option.some.injEq, exists_eq_left']
    constructor
    · intro h; exact Or.inr h
    · rintro (h | h)
      · rw [h] at hl
        simp at hl
      · exact h

theorem needsPipe_cosmetic (s : Game) :
    needsPipe (updateShake (updateParticles (updateBird s))) = needsPipe s := by
  obtain ⟨sh, e⟩ := updateShake_eq (updateParticles (updateBird s))
  rw [e]; rfl

theorem afterSpawn_pipes_eq (rnd : ℕ → ℚ) (s : Game) :
    (afterSpawn rnd s).pipes =
      if needsPipe s then s.pipes ++ [newPipe (rnd 0) s] else s.pipes := by
  unfold afterSpawn
  rw [needsPipe_cosmetic]
  split_ifs
  · rw [generatePipe_pipes, updateBird_cosmetic_pipes, newPipe_cosmetic]
  · exact updateBird_cosmetic_pipes s

theorem newPipe_topHeight_bounds (r : ℚ) (s : Game)
    (hh : s.pipeGap + 120 ≤ (s.canvasHeight : ℚ)) (h0 : 0 ≤ r) (h1 : r < 1) :
    60 ≤ (newPipe r s).topHeight ∧
    (newPipe r s).topHeight ≤ (s.canvasHeight : ℚ) - s.pipeGap - 60 := by
  have hd : 0 ≤ (s.canvasHeight : ℚ) - s.pipeGap - 60 - 60 := by linarith
  show 60 ≤ r * ((s.canvasHeight : ℚ) - s.pipeGap - 60 - 60) + 60 ∧
    r * ((s.canvasHeight : ℚ) - s.pipeGap - 60 - 60) + 60 ≤ (s.canvasHeight : ℚ) - s.pipeGap - 60
  constructor
  · have := mul_nonneg h0 hd
    linarith
  · have : r * ((s.canvasHeight : ℚ) - s.pipeGap - 60 - 60) ≤
        1 * ((s.canvasHeight : ℚ) - s.pipeGap - 60 - 60) :=
      mul_le_mul_of_nonneg_right (le_of_lt h1) hd
    linarith

theorem update_gaps_sublist (rnd : ℕ → ℚ) (dt : ℚ) (s : Game) :
    ((update rnd dt s).pipes.map gapOf).Sublist ((afterSpawn rnd s).pipes.map gapOf) := by
  by_cases hplay : s.gameState = GameState.playing
  · rw [update_playing rnd dt s hplay]
    by_cases hb : (updateBird s).bird.y < 0 ∨ (updateBird s).bird.y > (s.canvasHeight : ℚ) - 50
    · rw [if_pos hb, gameOver_pipes, updateBird_cosmetic_pipes]
      rcases afterSpawn_pipes rnd s with e | e
      · rw [e]
      · rw [e]
        exact (List.sublist_append_left _ _).map gapOf
    · rw [if_neg hb]
      exact updatePipes_gaps rnd _ _ _
  · rw [update_not_playing rnd dt s hplay]
    rcases afterSpawn_pipes rnd s with e | e
    · rw [e]
    · rw [e]
      exact (List.sublist_append_left _ _).map gapOf

theorem update_pipes_length_le (rnd : ℕ → ℚ) (dt : ℚ) (s : Game) :
    (update rnd dt s).pipes.length ≤ s.pipes.length + 1 := by
  have h := (update_gaps_sublist rnd dt s).length_le
  rw [List.length_map, List.length_map] at h
  refine h.trans ?_
  rcases afterSpawn_pipes rnd s with e | e
  · rw [e]; exact Nat.le_succ _
  · rw [e, List.length_append, List.length_singleton]

theorem get?_append_length {α : Type} (pre post : List α) (a : α) :
    (pre ++ a :: post).get? pre.length = some a := by
  induction pre with
  | nil => rfl
  | cons b l ih => simpa using ih

theorem set_append_length {α : Type} (pre post : List α) (a b : α) :
    (pre ++ a :: post).set pre.length b = pre ++ b :: post := by
  induction pre with
  | nil => rfl
  | cons c l ih => simp only [List.cons_append, List.length_cons, List.set_cons_succ, ih]

theorem eraseIdx_append_length {α : Type} (pre post : List α) (a : α) :
    (pre ++ a :: post).eraseIdx pre.length = pre ++ post := by
  induction pre with
  | nil => rfl
  | cons c l ih => simp only [List.cons_append, List.length_cons, List.eraseIdx_cons_succ, ih]

/-- One iteration of the pipe loop, at index `i`, written out. -/
theorem updatePipes_succ (rnd : ℕ → ℚ) (i k : ℕ) (s : Game) (p0 : Pipe)
    (hget : s.pipes.get? i = some p0) :
    updatePipes rnd (i + 1) k s =
      if (movedPipe s p0).x + s.pipeWidth < 0 then
        updatePipes rnd i k { s with pipes := (s.pipes.set i (movedPipe s p0)).eraseIdx i }
      else if checkCollision s s.bird (movedPipe s p0) = true then
        gameOver { s with pipes := s.pipes.set i (movedPipe s p0) }
      else if ¬ (movedPipe s p0).scored = true ∧ (movedPipe s p0).x + s.pipeWidth < s.bird.x then
        updatePipes rnd i (k + 25) (scoreEvent rnd k s
          ((s.pipes.set i (movedPipe s p0)).set i { movedPipe s p0 with scored := true }))
      else
        updatePipes rnd i k { s with pipes := s.pipes.set i (movedPipe s p0) } := by
  rw [updatePipes]
  simp only [hget]
  rfl

/-- One iteration of the pipe loop on the list `pre ++ p0 :: post`, at the index of `p0`. -/
theorem updatePipes_append (rnd : ℕ → ℚ) (k : ℕ) (s : Game) (pre post : List Pipe) (p0 : Pipe)
    (hs : s.pipes = pre ++ p0 :: post) :
    updatePipes rnd (pre.length + 1) k s =
      if (movedPipe s p0).x + s.pipeWidth < 0 then
        updatePipes rnd pre.length k { s with pipes := pre ++ post }
      else if checkCollision s s.bird (movedPipe s p0) = true then
        gameOver { s with pipes := pre ++ movedPipe s p0 :: post }
      else if ¬ (movedPipe s p0).scored = true ∧ (movedPipe s p0).x + s.pipeWidth < s.bird.x then
        updatePipes rnd pre.length (k + 25) (scoreEvent rnd k s
          (pre ++ { movedPipe s p0 with scored := true } :: post))
      else
        updatePipes rnd pre.length k { s with pipes := pre ++ movedPipe s p0 :: post } := by
  rw [updatePipes_succ rnd pre.length k s p0 (by rw [hs]; exact get?_append_length _ _ _), hs,
    set_append_length, set_append_length, eraseIdx_append_length]

theorem scoreEvent_score (rnd : ℕ → ℚ) (k : ℕ) (s : Game) (ps : List Pipe) :
    (scoreEvent rnd k s ps).score = s.score + 1 := by
  show (updateDifficulty { s with pipes := ps, score := s.score + 1 }).score = s.score + 1
  rw [updateDifficulty_score]

theorem scoreEvent_pipes (rnd : ℕ → ℚ) (k : ℕ) (s : Game) (ps : List Pipe) :
    (scoreEvent rnd k s ps).pipes = ps := by
  show (updateDifficulty { s with pipes := ps, score := s.score + 1 }).pipes = ps
  rw [updateDifficulty_pipes]

theorem unscored_append (l1 l2 : List Pipe) : unscored (l1 ++ l2) = unscored l1 + unscored l2 := by
  simp only [unscored, List.filter_append, List.length_append]

/-- The pipe loop raises the score by at most the number of unscored pipes it still has to
visit. -/
theorem updatePipes_score_le (rnd : ℕ → ℚ) :
    ∀ (pre post : List Pipe) (k : ℕ) (s : Game), s.pipes = pre ++ post →
      (updatePipes rnd pre.length k s).score ≤ s.score + unscored pre := by
  intro pre
  induction pre using List.reverseRecOn with
  | nil =>
    intro post k s _
    show s.score ≤ s.score + ((0 : ℕ) : ℤ)
    simp
  | append_singleton l p0 ih =>
    intro post k s hs
    rw [List.append_assoc, List.singleton_append] at hs
    rw [List.length_append, List.length_singleton, updatePipes_append rnd k s l post p0 hs,
      unscored_append]
    have hnn : (0 : ℤ) ≤ (unscored [p0] : ℤ) := Int.natCast_nonneg _
    push_cast
    split_ifs with h1 h2 h3
    · have := ih post k { s with pipes := l ++ post } rfl
      show (updatePipes rnd l.length k { s with pipes := l ++ post }).score ≤ _
      have e : ({ s with pipes := l ++ post } : Game).score = s.score := rfl
      rw [e] at this
      linarith
    · rw [gameOver_score]
      show s.score ≤ _
      have : (0 : ℤ) ≤ (unscored l : ℤ) := Int.natCast_nonneg _
      linarith
    · have := ih ({ movedPipe s p0 with scored := true } :: post) (k + 25)
        (scoreEvent rnd k s (l ++ { movedPipe s p0 with scored := true } :: post))
        (scoreEvent_pipes _ _ _ _)
      rw [scoreEvent_score] at this
      have hu : unscored [p0] = 1 := by
        have hsc : p0.scored = false := by
          have := h3.1
          simpa [movedPipe] using this
        simp [unscored, hsc]
      rw [hu]
      push_cast
      linarith
    · have := ih (movedPipe s p0 :: post) k { s with pipes := l ++ movedPipe s p0 :: post } rfl
      have e : ({ s with pipes := l ++ movedPipe s p0 :: post } : Game).score = s.score := rfl
      rw [e] at this
      linarith

theorem get?_set_self {α : Type} (l : List α) (i : ℕ) (a : α) (h : i < l.length) :
    (l.set i a).get? i = some a := by
  induction l generalizing i with
  | nil => exact absurd h (Nat.not_lt_zero _)
  | cons b l ih =>
    cases i with
    | zero => rfl
    | succ j =>
      simp only [List.set_cons_succ, List.get?_cons_succ]
      exact ih j (Nat.lt_of_succ_lt_succ h)

theorem afterSpawn_score (rnd : ℕ → ℚ) (s : Game) : (afterSpawn rnd s).score = s.score := by
  obtain ⟨sh, e⟩ := updateShake_eq (updateParticles (updateBird s))
  unfold afterSpawn
  split_ifs
  · show (updateShake (updateParticles (updateBird s))).score = _
    rw [e]; rfl
  · rw [e]; rfl

theorem update_score_le_unscored (rnd : ℕ → ℚ) (dt : ℚ) (s : Game) :
    (update rnd dt s).score ≤ s.score + unscored (afterSpawn rnd s).pipes := by
  have hnn : (0 : ℤ) ≤ (unscored (afterSpawn rnd s).pipes : ℤ) := Int.natCast_nonneg _
  by_cases hplay : s.gameState = GameState.playing
  · rw [update_playing rnd dt s hplay]
    by_cases hb : (updateBird s).bird.y < 0 ∨ (updateBird s).bird.y > (s.canvasHeight : ℚ) - 50
    · rw [if_pos hb, gameOver_score, (updateBird_cosmetic_score s).1]
      linarith
    · rw [if_neg hb]
      have := updatePipes_score_le rnd (afterSpawn rnd s).pipes []
        (if needsPipe (updateShake (updateParticles (updateBird s))) then 1 else 0)
        (afterSpawn rnd s) (List.append_nil _).symm
      rw [afterSpawn_score] at this
      exact this
  · rw [update_not_playing rnd dt s hplay]
    linarith

theorem checkCollision_in_gap (s : Game) (b : Bird) (p : Pipe)
    (ht : p.topHeight ≤ b.y - b.size / 2) (hb : b.y + b.size / 2 ≤ p.bottomY) :
    checkCollision s b p = false := by
  simp only [checkCollision]
  split_ifs with h1 h2
  · rcases h2 with h | h
    · exact absurd ht (not_le.mpr h)
    · exact absurd hb (not_le.mpr h)
  · rfl
  · rfl

theorem reachable_divingBird : Reachable divingBird := by
  have e : (update halfRnd 16)^[13]
      (cruise 0 [⟨396 / 5, 220, 420, false⟩, ⟨1398 / 5, 220, 420, false⟩]) = divingBird := by
    decide!
  rw [← e]
  exact reachable_iterate_update _ _ _ reachable_cruise_6

/-- When the iterations for the pipes `rest` only advance them, the loop reaches the pipe
before them with `rest` moved and everything else as it was. -/
theorem updatePipes_onlyAdvanced (rnd : ℕ → ℚ) :
    ∀ (rest pre post : List Pipe) (k : ℕ) (s : Game),
      s.pipes = pre ++ (rest ++ post) → (∀ p ∈ rest, onlyAdvanced s p) →
      updatePipes rnd (pre.length + rest.length) k s =
        updatePipes rnd pre.length k
          { s with pipes := pre ++ (rest.map (movedPipe s) ++ post) } := by
  intro rest
  induction rest using List.reverseRecOn with
  | nil =>
    intro pre post k s hs _
    have e : s = { s with pipes := pre ++ (List.map (movedPipe s) [] ++ post) } := by
      cases s
      simp only [List.map_nil, List.nil_append, Game.mk.injEq, true_and, and_true] at hs ⊢
      exact hs
    rw [List.length_nil, Nat.add_zero, ← e]
  | append_singleton l p ih =>
    intro pre post k s hs hq
    have hp : onlyAdvanced s p := hq p (by simp)
    have hl : ∀ q ∈ l, onlyAdvanced s q := fun q hq1 => hq q (by simp [hq1])
    have hs2 : s.pipes = (pre ++ l) ++ p :: post := by
      rw [hs]; simp
    have hlen : pre.length + (l ++ [p]).length = (pre ++ l).length + 1 := by
      simp only [List.length_append, List.length_singleton]; omega
    have hc : ¬ checkCollision s s.bird (movedPipe s p) = true := by
      rw [hp.2.1]; decide
    rw [hlen, updatePipes_append rnd k s (pre ++ l) post p hs2, if_neg hp.1, if_neg hc,
      if_neg hp.2.2, List.length_append]
    have := ih pre (movedPipe s p :: post) k
      { s with pipes := pre ++ l ++ movedPipe s p :: post } (by simp) hl
    rw [this]
    congr 1
    simp [movedPipe]

theorem afterSpawn_gameState (rnd : ℕ → ℚ) (s : Game) :
    (afterSpawn rnd s).gameState = s.gameState := by
  obtain ⟨sh, e⟩ := updateShake_eq (updateParticles (updateBird s))
  unfold afterSpawn
  split_ifs
  · show (updateShake (updateParticles (updateBird s))).gameState = _
    rw [e]; rfl
  · rw [e]; rfl

theorem scoreEvent_gameState (rnd : ℕ → ℚ) (k : ℕ) (s : Game) (ps : List Pipe) :
    (scoreEvent rnd k s ps).gameState = s.gameState := by
  show (updateDifficulty { s with pipes := ps, score := s.score + 1 }).gameState = s.gameState
  obtain ⟨l, sp, gap, g, sh, e⟩ :=
    updateDifficulty_eq { s with pipes := ps, score := s.score + 1 }
  rw [e]

theorem eq_recolor_of_gameplay_eq {s t : Game} (h : gameplay s = gameplay t) :
    t = recolor s t.particles t.screenShake t.bird.rotation t.lastScore t.lastDifficultyLevel
      t.stored := by
  obtain ⟨cw, ch, gs, g, jp, ps, pg, pw, bs, mx, mn, ⟨bx, by1, bv, bz, br⟩, pp, sc, be, gsp, dl,
    pa, sh, ls, ld, st⟩ := s
  obtain ⟨cw2, ch2, gs2, g2, jp2, ps2, pg2, pw2, bs2, mx2, mn2, ⟨bx2, by2, bv2, bz2, br2⟩, pp2,
    sc2, be2, gsp2, dl2, pa2, sh2, ls2, ld2, st2⟩ := t
  simp only [gameplay, Gameplay.mk.injEq] at h
  obtain ⟨rfl, rfl, rfl, rfl, rfl, rfl, rfl, rfl, rfl, rfl, rfl, rfl, rfl, rfl, rfl, rfl, rfl,
    rfl, rfl, rfl⟩ := h
  rfl

theorem gameplay_startGame {s t : Game} (h : gameplay s = gameplay t) :
    gameplay (startGame s) = gameplay (startGame t) := by
  rw [eq_recolor_of_gameplay_eq h]
  rfl

theorem gameplay_pauseGame {s t : Game} (h : gameplay s = gameplay t) :
    gameplay (pauseGame s) = gameplay (pauseGame t) := by
  rw [eq_recolor_of_gameplay_eq h]
  simp only [pauseGame, recolor]
  split_ifs <;> rfl

theorem gameplay_resumeGame {s t : Game} (h : gameplay s = gameplay t) :
    gameplay (resumeGame s) = gameplay (resumeGame t) := by
  rw [eq_recolor_of_gameplay_eq h]
  simp only [resumeGame, recolor]
  split_ifs <;> rfl

theorem gameplay_jump (rnd rnd2 : ℕ → ℚ) {s t : Game} (h : gameplay s = gameplay t) :
    gameplay (jump rnd s) = gameplay (jump rnd2 t) := by
  rw [eq_recolor_of_gameplay_eq h]
  simp only [jump, recolor]
  split_ifs <;> rfl

theorem gameplay_gameOver {s t : Game} (h : gameplay s = gameplay t) :
    gameplay (gameOver s) = gameplay (gameOver t) := by
  rw [eq_recolor_of_gameplay_eq h]
  simp only [gameOver, recolor]
  split_ifs <;> rfl

theorem gameplay_scoreEvent (rnd rnd2 : ℕ → ℚ) (k k2 : ℕ) (ps : List Pipe) {s t : Game}
    (h : gameplay s = gameplay t) :
    gameplay (scoreEvent rnd k s ps) = gameplay (scoreEvent rnd2 k2 t ps) := by
  rw [eq_recolor_of_gameplay_eq h]
  simp only [scoreEvent, addScoreParticles, updateDifficulty, recolor]
  split_ifs <;> rfl

theorem gameplay_set_pipes (ps : List Pipe) {s t : Game} (h : gameplay s = gameplay t) :
    gameplay { s with pipes := ps } = gameplay { t with pipes := ps } := by
  rw [eq_recolor_of_gameplay_eq h]
  rfl

theorem gameplay_afterSpawn (rnd : ℕ → ℚ) {s t : Game} (h : gameplay s = gameplay t) :
    gameplay (afterSpawn rnd s) = gameplay (afterSpawn rnd t) := by
  rw [eq_recolor_of_gameplay_eq h]
  unfold afterSpawn
  rw [needsPipe_cosmetic, needsPipe_cosmetic]
  have hn : needsPipe (recolor s t.particles t.screenShake t.bird.rotation t.lastScore
      t.lastDifficultyLevel t.stored) = needsPipe s := rfl
  rw [hn]
  obtain ⟨sh, e⟩ := updateShake_eq (updateParticles (updateBird s))
  obtain ⟨sh2, e2⟩ := updateShake_eq (updateParticles (updateBird
    (recolor s t.particles t.screenShake t.bird.rotation t.lastScore
      t.lastDifficultyLevel t.stored)))
  rw [e, e2]
  split_ifs <;> rfl

theorem movedPipe_congr {s t : Game} (h : gameplay s = gameplay t) (p : Pipe) :
    movedPipe s p = movedPipe t p := by
  rw [eq_recolor_of_gameplay_eq h]
  rfl

theorem checkCollision_congr {s t : Game} (h : gameplay s = gameplay t) (p : Pipe) :
    checkCollision s s.bird p = checkCollision t t.bird p := by
  rw [eq_recolor_of_gameplay_eq h]
  rfl

/-- The pipe loop on two states with the same gameplay part gives states with the same
gameplay part, whatever the random draws for the particles are. -/
theorem gameplay_updatePipes (rnd rnd2 : ℕ → ℚ) :
    ∀ (n k k2 : ℕ) (s t : Game), gameplay s = gameplay t →
      gameplay (updatePipes rnd n k s) = gameplay (updatePipes rnd2 n k2 t) := by
  intro n
  induction n with
  | zero => intro k k2 s t h; exact h
  | succ i ih =>
    intro k k2 s t h
    have hp : s.pipes = t.pipes := congrArg Gameplay.pipes h
    have hw : s.pipeWidth = t.pipeWidth := congrArg Gameplay.pipeWidth h
    have hbx : s.bird.x = t.bird.x := congrArg Gameplay.birdX h
    cases hget : s.pipes.get? i with
    | none =>
      have hget2 : t.pipes.get? i = none := by rw [← hp]; exact hget
      have e1 : updatePipes rnd (i + 1) k s = updatePipes rnd i k s := by
        rw [updatePipes]; simp only [hget]
      have e2 : updatePipes rnd2 (i + 1) k2 t = updatePipes rnd2 i k2 t := by
        rw [updatePipes]; simp only [hget2]
      rw [e1, e2]
      exact ih k k2 s t h
    | some p0 =>
      have hget2 : t.pipes.get? i = some p0 := by rw [← hp]; exact hget
      have hm : movedPipe s p0 = movedPipe t p0 := movedPipe_congr h p0
      have hc : checkCollision s s.bird (movedPipe s p0) =
          checkCollision t t.bird (movedPipe t p0) := by
        rw [hm]; exact checkCollision_congr h _
      rw [updatePipes_succ rnd i k s p0 hget, updatePipes_succ rnd2 i k2 t p0 hget2]
      by_cases c1 : (movedPipe t p0).x + t.pipeWidth < 0
      · have c1s : (movedPipe s p0).x + s.pipeWidth < 0 := by rw [hm, hw]; exact c1
        rw [if_pos c1s, if_pos c1, hm, hp]
        exact ih _ _ _ _ (gameplay_set_pipes _ h)
      · have c1s : ¬ (movedPipe s p0).x + s.pipeWidth < 0 := by rw [hm, hw]; exact c1
        rw [if_neg c1s, if_neg c1]
        by_cases c2 : checkCollision t t.bird (movedPipe t p0) = true
        · have c2s : checkCollision s s.bird (movedPipe s p0) = true := by rw [hc]; exact c2
          rw [if_pos c2s, if_pos c2, hm, hp]
          exact gameplay_gameOver (gameplay_set_pipes _ h)
        · have c2s : ¬ checkCollision s s.bird (movedPipe s p0) = true := by rw [hc]; exact c2
          rw [if_neg c2s, if_neg c2]
          by_cases c3 : ¬ (movedPipe t p0).scored = true ∧
              (movedPipe t p0).x + t.pipeWidth < t.bird.x
          · have c3s : ¬ (movedPipe s p0).scored = true ∧
                (movedPipe s p0).x + s.pipeWidth < s.bird.x := by
              rw [hm, hw, hbx]; exact c3
            rw [if_pos c3s, if_pos c3, hm, hp]
            exact ih _ _ _ _ (gameplay_scoreEvent rnd rnd2 k k2 _ h)
          · have c3s : ¬ (¬ (movedPipe s p0).scored = true ∧
                (movedPipe s p0).x + s.pipeWidth < s.bird.x) := by
              rw [hm, hw, hbx]; exact c3
            rw [if_neg c3s, if_neg c3, hm, hp]
            exact ih _ _ _ _ (gameplay_set_pipes _ h)

theorem updateBird_y_congr {s t : Game} (h : gameplay s = gameplay t) :
    (updateBird s).bird.y = (updateBird t).bird.y := by
  rw [eq_recolor_of_gameplay_eq h]
  rfl

theorem gameplay_update (rnd rnd2 : ℕ → ℚ) (dt dt2 : ℚ) {s t : Game}
    (h : gameplay s = gameplay t) (h0 : rnd 0 = rnd2 0) :
    gameplay (update rnd dt s) = gameplay (update rnd2 dt2 t) := by
  have hg : s.gameState = t.gameState := congrArg Gameplay.gameState h
  have hch : s.canvasHeight = t.canvasHeight := congrArg Gameplay.canvasHeight h
  by_cases hplay : s.gameState = GameState.playing
  · have hplay2 : t.gameState = GameState.playing := by rw [← hg]; exact hplay
    have hsp : gameplay (afterSpawn rnd s) = gameplay (afterSpawn rnd2 t) := by
      have e : afterSpawn rnd2 t = afterSpawn rnd t := by
        unfold afterSpawn generatePipe
        rw [h0]
      rw [e]
      exact gameplay_afterSpawn rnd h
    have hlen : (afterSpawn rnd s).pipes.length = (afterSpawn rnd2 t).pipes.length :=
      congrArg (fun g => g.pipes.length) hsp
    rw [update_playing rnd dt s hplay, update_playing rnd2 dt2 t hplay2, updateBird_y_congr h,
      hch, hlen]
    split_ifs with hb
    · have hcos : gameplay (updateShake (updateParticles (updateBird s))) =
          gameplay (updateShake (updateParticles (updateBird t))) := by
        obtain ⟨sh, e⟩ := updateShake_eq (updateParticles (updateBird s))
        obtain ⟨sh2, e2⟩ := updateShake_eq (updateParticles (updateBird t))
        rw [e, e2, eq_recolor_of_gameplay_eq h]
        rfl
      exact gameplay_gameOver hcos
    all_goals exact gameplay_updatePipes rnd rnd2 _ _ _ _ _ hsp
  · have hplay2 : t.gameState ≠ GameState.playing := by rw [← hg]; exact hplay
    rw [update_not_playing rnd dt s hplay, update_not_playing rnd2 dt2 t hplay2]
    exact h

theorem gameOver_with_pipes (t : Game) (a b : List Pipe) :
    { gameOver { t with pipes := a } with pipes := b } = gameOver { t with pipes := b } := by
  unfold gameOver
  split_ifs <;> rfl

theorem scoreEvent_with_pipes (rnd : ℕ → ℚ) (k : ℕ) (t : Game) (a : List Pipe) :
    scoreEvent rnd k t a = { scoreEvent rnd k t [] with pipes := a } := by
  simp only [scoreEvent, addScoreParticles, updateDifficulty]
  split_ifs <;> rfl

/-- One iteration of the pipe loop on the state `t` with pipe list `pre ++ p0 :: post`. -/
theorem updatePipes_append_with (rnd : ℕ → ℚ) (k : ℕ) (t : Game) (pre post : List Pipe)
    (p0 : Pipe) :
    updatePipes rnd (pre.length + 1) k { t with pipes := pre ++ p0 :: post } =
      if (movedPipe t p0).x + t.pipeWidth < 0 then
        updatePipes rnd pre.length k { t with pipes := pre ++ post }
      else if checkCollision t t.bird (movedPipe t p0) = true then
        gameOver { t with pipes := pre ++ movedPipe t p0 :: post }
      else if ¬ (movedPipe t p0).scored = true ∧ (movedPipe t p0).x + t.pipeWidth < t.bird.x then
        updatePipes rnd pre.length (k + 25)
          { scoreEvent rnd k t [] with
            pipes := pre ++ { movedPipe t p0 with scored := true } :: post }
      else
        updatePipes rnd pre.length k { t with pipes := pre ++ movedPipe t p0 :: post } := by
  rw [updatePipes_append rnd k { t with pipes := pre ++ p0 :: post } pre post p0 rfl,
    scoreEvent_with_pipes]
  rfl

/-- The iterations for the pipes `rest` neither read nor touch the pipes `below` them: the
loop on `below ++ rest ++ post` does to `rest` what it does on `rest ++ post` alone, and
either stops there at a collision or reaches `below` with `below` as it was. -/
theorem updatePipes_local (rnd : ℕ → ℚ) :
    ∀ (rest below post : List Pipe) (k : ℕ) (t : Game),
      t.gameState ≠ GameState.gameOver →
      ((updatePipes rnd rest.length k { t with pipes := rest ++ post }).gameState =
          GameState.gameOver →
        updatePipes rnd (below.length + rest.length) k
            { t with pipes := below ++ (rest ++ post) } =
          { updatePipes rnd rest.length k { t with pipes := rest ++ post } with
            pipes := below ++
              (updatePipes rnd rest.length k { t with pipes := rest ++ post }).pipes }) ∧
      ((updatePipes rnd rest.length k { t with pipes := rest ++ post }).gameState ≠
          GameState.gameOver →
        ∃ k2 : ℕ,
          updatePipes rnd (below.length + rest.length) k
              { t with pipes := below ++ (rest ++ post) } =
            updatePipes rnd below.length k2
              { updatePipes rnd rest.length k { t with pipes := rest ++ post } with
                pipes := below ++
                  (updatePipes rnd rest.length k { t with pipes := rest ++ post }).pipes }) := by
  intro rest
  induction rest using List.reverseRecOn with
  | nil =>
    intro below post k t ht
    constructor
    · intro h
      exact absurd h ht
    · intro _
      exact ⟨k, rfl⟩
  | append_singleton l p ih =>
    intro below post k t ht
    have e1 : below ++ ((l ++ [p]) ++ post) = (below ++ l) ++ p :: post := by simp
    have e2 : (l ++ [p]) ++ post = l ++ p :: post := by simp
    have e3 : below.length + (l ++ [p]).length = (below ++ l).length + 1 := by
      simp only [List.length_append, List.length_singleton]; omega
    have e4 : (l ++ [p]).length = l.length + 1 := by simp
    have e5 : ∀ q : List Pipe, (below ++ l) ++ q = below ++ (l ++ q) := fun q => by simp
    have e6 : (below ++ l).length = below.length + l.length := by simp
    rw [e1, e2, e3, e4, updatePipes_append_with, updatePipes_append_with]
    split_ifs with h1 h2 h3
    · rw [e5, e6]
      exact ih below post k t ht
    · constructor
      · intro _
        rw [gameOver_pipes, gameOver_with_pipes, e5]
      · intro h
        exact absurd (gameOver_gameState _) h
    · rw [e5, e6]
      exact ih below ({ movedPipe t p with scored := true } :: post) (k + 25)
        (scoreEvent rnd k t []) (by rw [scoreEvent_gameState]; exact ht)
    · rw [e5, e6]
      exact ih below (movedPipe t p :: post) k t ht

theorem afterSpawn_eq_with_pipes (rnd : ℕ → ℚ) (s : Game) (ps : List Pipe)
    (h : (afterSpawn rnd s).pipes = ps) :
    afterSpawn rnd s = { afterSpawn rnd s with pipes := ps } := by
  rw [← h]

theorem sweepAbove_onlyAdvanced (rnd : ℕ → ℚ) (s : Game) (rest : List Pipe)
    (hrest : ∀ p ∈ rest, onlyAdvanced (afterSpawn rnd s) p) :
    sweepAbove rnd s rest =
      { afterSpawn rnd s with pipes := rest.map (movedPipe (afterSpawn rnd s)) } := by
  have h := updatePipes_onlyAdvanced rnd rest [] []
    (if needsPipe (updateShake (updateParticles (updateBird s))) then 1 else 0)
    { afterSpawn rnd s with pipes := rest } (by simp) hrest
  simp only [List.length_nil, Nat.zero_add, List.nil_append, List.append_nil] at h
  unfold sweepAbove sweep
  rw [h]
  rfl

theorem movedPipe_afterSpawn (rnd : ℕ → ℚ) (s : Game) (p : Pipe) :
    movedPipe (afterSpawn rnd s) p = { p with x := p.x - s.pipeSpeed * s.gameSpeed } := by
  obtain ⟨sh, e⟩ := updateShake_eq (updateParticles (updateBird s))
  unfold afterSpawn
  split_ifs
  · show movedPipe (generatePipe rnd 0 (updateShake (updateParticles (updateBird s)))) p = _
    rw [e]; rfl
  · rw [e]; rfl

theorem update_pipes_onlyAdvanced (rnd : ℕ → ℚ) (dt : ℚ) (s : Game)
    (hplay : s.gameState = GameState.playing)
    (hb : 0 ≤ (updateBird s).bird.y ∧ (updateBird s).bird.y ≤ (s.canvasHeight : ℚ) - 50)
    (hall : ∀ p ∈ (afterSpawn rnd s).pipes, onlyAdvanced (afterSpawn rnd s) p) :
    (update rnd dt s).pipes =
      (afterSpawn rnd s).pipes.map (fun p => { p with x := p.x - s.pipeSpeed * s.gameSpeed }) := by
  have hnb : ¬ ((updateBird s).bird.y < 0 ∨
      (updateBird s).bird.y > (s.canvasHeight : ℚ) - 50) := by
    rintro (hl | hr)
    · exact absurd hb.1 (not_le.mpr hl)
    · exact absurd hb.2 (not_le.mpr hr)
  have h := updatePipes_onlyAdvanced rnd (afterSpawn rnd s).pipes [] []
    (if needsPipe (updateShake (updateParticles (updateBird s))) then 1 else 0)
    (afterSpawn rnd s) (by simp) hall
  simp only [List.length_nil, Nat.zero_add, List.nil_append, List.append_nil] at h
  rw [update_playing rnd dt s hplay, if_neg hnb, h]
  show (afterSpawn rnd s).pipes.map (movedPipe (afterSpawn rnd s)) = _
  exact List.map_congr_left (fun p _ => movedPipe_afterSpawn rnd s p)

/-! ## The claims -/

/-- C1. In every reachable state the velocity limits are `-7` and `7` and the bird's
velocity lies between them; the same holds after one more `update` and one more `jump`. -/
theorem C1_velocity_within_limits (s : Game) (h : Reachable s) :
    (s.minVelocity = -7 ∧ s.maxVelocity = 7 ∧
      s.minVelocity ≤ s.bird.velocity ∧ s.bird.velocity ≤ s.maxVelocity) ∧
    (∀ (rnd : ℕ → ℚ) (dt : ℚ),
      (update rnd dt s).minVelocity ≤ (update rnd dt s).bird.velocity ∧
      (update rnd dt s).bird.velocity ≤ (update rnd dt s).maxVelocity) ∧
    (∀ rnd : ℕ → ℚ,
      (jump rnd s).minVelocity ≤ (jump rnd s).bird.velocity ∧
      (jump rnd s).bird.velocity ≤ (jump rnd s).maxVelocity) := by
  have key : ∀ t : Game, Reachable t →
      t.minVelocity = -7 ∧ t.maxVelocity = 7 ∧
      t.minVelocity ≤ t.bird.velocity ∧ t.bird.velocity ≤ t.maxVelocity := by
    intro t ht
    obtain ⟨-, h2, h3, h4, h5⟩ := velocityInv_of_reachable ht
    exact ⟨h2, h3, by rw [h2]; exact h4, by rw [h3]; exact h5⟩
  refine ⟨key s h, ?_, ?_⟩
  · intro rnd dt
    exact (key _ (Reachable.update rnd dt h)).2.2
  · intro rnd
    exact (key _ (Reachable.jump rnd h)).2.2

/-- C1 at the sample run: the state is reachable and its velocity is within the limits. -/
theorem C1_velocity_within_limits_witness :
    Reachable sampleRun ∧
    sampleRun.minVelocity ≤ sampleRun.bird.velocity ∧
    sampleRun.bird.velocity ≤ sampleRun.maxVelocity :=
  ⟨reachable_sampleRun, (C1_velocity_within_limits sampleRun reachable_sampleRun).1.2.2⟩

/-- C2. `checkCollision` is true exactly when the bird's x-range overlaps the pipe's and the
bird protrudes from the gap; a bird inside the gap collides at no pipe x, and an overlapping
bird that protrudes above or below always collides. -/
theorem C2_checkCollision_iff (s : Game) (bird : Bird) (pipe : Pipe) :
    (checkCollision s bird pipe = true ↔
      (bird.x + bird.size / 2 > pipe.x ∧ bird.x - bird.size / 2 < pipe.x + s.pipeWidth) ∧
      (bird.y - bird.size / 2 < pipe.topHeight ∨ bird.y + bird.size / 2 > pipe.bottomY)) ∧
    (pipe.topHeight ≤ bird.y - bird.size / 2 ∧ bird.y + bird.size / 2 ≤ pipe.bottomY →
      ∀ x : ℚ, checkCollision s bird { pipe with x := x } = false) ∧
    ((bird.x + bird.size / 2 > pipe.x ∧ bird.x - bird.size / 2 < pipe.x + s.pipeWidth) ∧
      (bird.y - bird.size / 2 < pipe.topHeight ∨ bird.y + bird.size / 2 > pipe.bottomY) →
      checkCollision s bird pipe = true) := by
  have key : ∀ p : Pipe, checkCollision s bird p = true ↔
      (bird.x + bird.size / 2 > p.x ∧ bird.x - bird.size / 2 < p.x + s.pipeWidth) ∧
      (bird.y - bird.size / 2 < p.topHeight ∨ bird.y + bird.size / 2 > p.bottomY) := by
    intro p
    simp only [checkCollision]
    split_ifs with h1 h2
    · exact ⟨fun _ => ⟨h1, h2⟩, fun _ => rfl⟩
    · exact ⟨fun h => absurd h (by decide), fun h => absurd h.2 h2⟩
    · exact ⟨fun h => absurd h (by decide), fun h => absurd h.1 h1⟩
  refine ⟨key pipe, ?_, (key pipe).2⟩
  rintro ⟨ht, hb⟩ x
  rw [Bool.eq_false_iff]
  intro hc
  rcases ((key _).1 hc).2 with h | h
  · exact absurd ht (not_le.mpr h)
  · exact absurd hb (not_le.mpr h)

/-- C2 at a concrete bird and pipe: inside the gap of the pipe there is no collision at
pipe x = 90, and the general equivalence evaluates to false on both sides. -/
theorem C2_checkCollision_iff_witness :
    checkCollision sampleRun { x := 100, y := 300, velocity := 0, size := 25, rotation := 0 }
      { x := 90, topHeight := 200, bottomY := 400, scored := false } = false :=
  (C2_checkCollision_iff sampleRun { x := 100, y := 300, velocity := 0, size := 25, rotation := 0 }
      { x := 0, topHeight := 200, bottomY := 400, scored := false }).2.1
    ⟨by norm_num, by norm_num⟩ 90

/-- C3. In every reachable state `difficultyLevel = floor(score / 8) + 1`, and that level is
a non-decreasing function of the score. -/
theorem C3_level_is_function_of_score (s : Game) (h : Reachable s) :
    s.difficultyLevel = Int.floor ((s.score : ℚ) / 8) + 1 ∧
    ∀ a b : ℤ, a ≤ b → newDifficultyLevel a ≤ newDifficultyLevel b :=
  ⟨levelInv_of_reachable h, fun _ _ hab => newDifficultyLevel_mono hab⟩

/-- C3 at the sample run. -/
theorem C3_level_is_function_of_score_witness :
    Reachable sampleRun ∧
    sampleRun.difficultyLevel = Int.floor ((sampleRun.score : ℚ) / 8) + 1 :=
  ⟨reachable_sampleRun, (C3_level_is_function_of_score sampleRun reachable_sampleRun).1⟩

/-- C4. While playing, `jump` sets the velocity to `max(jumpPower, v + jumpPower)`; the
result is never below `jumpPower`, is exactly `jumpPower` when `v ≤ 0`, and two jumps in
a row from velocity `-3` with `jumpPower = -5` give `-5`. -/
theorem C4_jump_floor_rule (rnd : ℕ → ℚ) (s : Game) (h : s.gameState = GameState.playing) :
    (jump rnd s).bird.velocity = max s.jumpPower (s.bird.velocity + s.jumpPower) ∧
    s.jumpPower ≤ (jump rnd s).bird.velocity ∧
    (s.bird.velocity ≤ 0 → (jump rnd s).bird.velocity = s.jumpPower) ∧
    (∀ rnd2 : ℕ → ℚ, s.jumpPower = -5 → s.bird.velocity = -3 →
      (jump rnd s).bird.velocity = -5 ∧ (jump rnd2 (jump rnd s)).bird.velocity = -5) := by
  have hv : ∀ (r : ℕ → ℚ) (t : Game), t.gameState = GameState.playing →
      (jump r t).bird.velocity = max t.jumpPower (t.bird.velocity + t.jumpPower) := by
    intro r t ht
    rw [jump_playing r t ht]; rfl
  have hg : (jump rnd s).gameState = GameState.playing := by
    rw [jump_playing rnd s h]; exact h
  have hj : (jump rnd s).jumpPower = s.jumpPower := by
    rw [jump_playing rnd s h]; rfl
  refine ⟨hv rnd s h, ?_, ?_, ?_⟩
  · rw [hv rnd s h]; exact le_max_left _ _
  · intro h0
    rw [hv rnd s h]
    exact max_eq_left (by linarith)
  · intro rnd2 hp h3
    have h1 : (jump rnd s).bird.velocity = -5 := by
      rw [hv rnd s h, hp, h3]; norm_num
    refine ⟨h1, ?_⟩
    rw [hv rnd2 _ hg, hj, h1, hp]; norm_num

/-- C4 at a playing state with velocity `-3`: both jumps leave the velocity at `-5`. -/
theorem C4_jump_floor_rule_witness :
    (jump halfRnd risingBird).bird.velocity = -5 ∧
    (jump halfRnd (jump halfRnd risingBird)).bird.velocity = -5 :=
  (C4_jump_floor_rule halfRnd risingBird rfl).2.2.2 halfRnd rfl rfl

/-- C5. `update`, `jump` outside the start screen, `pauseGame` and `resumeGame` never
decrease the score; `startGame` sets it to `0`; a non-negative score stays non-negative
under every operation, and it is non-negative in every reachable state. -/
theorem C5_score_monotone (rnd : ℕ → ℚ) (dt : ℚ) (s : Game) :
    s.score ≤ (update rnd dt s).score ∧
    (s.gameState ≠ GameState.start → s.score ≤ (jump rnd s).score) ∧
    s.score ≤ (pauseGame s).score ∧
    s.score ≤ (resumeGame s).score ∧
    (startGame s).score = 0 ∧
    (0 ≤ s.score → 0 ≤ (update rnd dt s).score ∧ 0 ≤ (jump rnd s).score ∧
      0 ≤ (pauseGame s).score ∧ 0 ≤ (resumeGame s).score ∧ 0 ≤ (startGame s).score) ∧
    (Reachable s → 0 ≤ s.score) := by
  have hj : s.gameState ≠ GameState.start → (jump rnd s).score = s.score := by
    intro hs
    obtain ⟨b, ps, sh, e⟩ := jump_not_start rnd s hs
    rw [e]
  have hp : (pauseGame s).score = s.score := by
    obtain ⟨g, e⟩ := pauseGame_eq s
    rw [e]
  have hr : (resumeGame s).score = s.score := by
    obtain ⟨g, e⟩ := resumeGame_eq s
    rw [e]
  refine ⟨score_le_update rnd dt _ s (le_refl _), fun hs => (hj hs).ge, hp.ge, hr.ge, rfl,
    ?_, score_nonneg_of_reachable⟩
  intro h0
  refine ⟨score_le_update rnd dt 0 s h0, ?_, by rw [hp]; exact h0, by rw [hr]; exact h0,
    le_refl _⟩
  by_cases hs : s.gameState = GameState.start
  · simp only [jump, hs]
    exact le_refl _
  · rw [hj hs]; exact h0

/-- C6. `gameOver` leaves `bestScore = max(bestScore, score)` and writes the stored entry
exactly when the score exceeds the previous best; an `update` that ends a run does the same
with the run's final score; no operation decreases `bestScore`, and the stored entry changes
only in an `update` whose final score exceeds the previous best. -/
theorem C6_bestScore_is_running_max (rnd : ℕ → ℚ) (dt : ℚ) (s : Game) :
    (gameOver s).bestScore = max s.bestScore s.score ∧
    (gameOver s).stored = (if s.score > s.bestScore then some s.score else s.stored) ∧
    (s.gameState = GameState.playing → (update rnd dt s).gameState = GameState.gameOver →
      (update rnd dt s).bestScore = max s.bestScore (update rnd dt s).score) ∧
    (s.bestScore ≤ (startGame s).bestScore ∧ s.bestScore ≤ (jump rnd s).bestScore ∧
      s.bestScore ≤ (pauseGame s).bestScore ∧ s.bestScore ≤ (resumeGame s).bestScore ∧
      s.bestScore ≤ (update rnd dt s).bestScore) ∧
    ((startGame s).stored = s.stored ∧ (jump rnd s).stored = s.stored ∧
      (pauseGame s).stored = s.stored ∧ (resumeGame s).stored = s.stored) ∧
    ((update rnd dt s).stored = s.stored ∨
      (s.bestScore < (update rnd dt s).score ∧
        (update rnd dt s).stored = some (update rnd dt s).score ∧
        (update rnd dt s).bestScore = (update rnd dt s).score)) := by
  have hjb : (jump rnd s).bestScore = s.bestScore ∧ (jump rnd s).stored = s.stored := by
    by_cases hs : s.gameState = GameState.start
    · simp only [jump, hs]
      exact ⟨rfl, rfl⟩
    · obtain ⟨b, ps, sh, e⟩ := jump_not_start rnd s hs
      rw [e]; exact ⟨rfl, rfl⟩
  have hp : (pauseGame s).bestScore = s.bestScore ∧ (pauseGame s).stored = s.stored := by
    obtain ⟨g, e⟩ := pauseGame_eq s
    rw [e]; exact ⟨rfl, rfl⟩
  have hr : (resumeGame s).bestScore = s.bestScore ∧ (resumeGame s).stored = s.stored := by
    obtain ⟨g, e⟩ := resumeGame_eq s
    rw [e]; exact ⟨rfl, rfl⟩
  refine ⟨gameOver_bestScore s, gameOver_stored s, ?_,
    ⟨le_refl _, hjb.1.ge, hp.1.ge, hr.1.ge, ?_⟩, ⟨rfl, hjb.2, hp.2, hr.2⟩, ?_⟩
  · intro hplay hover
    rcases update_bestScore_cases rnd dt s with ⟨hg, -, -⟩ | ⟨t, ⟨-, hb, -⟩, e⟩
    · rw [hover, hplay] at hg
      exact absurd hg (by decide)
    · rw [e, gameOver_bestScore, gameOver_score, hb]
  · rcases update_bestScore_cases rnd dt s with ⟨-, hb, -⟩ | ⟨t, ⟨-, hb, -⟩, e⟩
    · exact hb.ge
    · rw [e, gameOver_bestScore, hb]; exact le_max_left _ _
  · rcases update_bestScore_cases rnd dt s with ⟨-, -, hst⟩ | ⟨t, ⟨-, hb, hst⟩, e⟩
    · exact Or.inl hst
    · rw [e, gameOver_stored, gameOver_score, gameOver_bestScore, hb, hst]
      by_cases hgt : t.score > s.bestScore
      · right
        rw [if_pos hgt]
        exact ⟨hgt, rfl, max_eq_right (le_of_lt hgt)⟩
      · left
        rw [if_neg hgt]

/-- C6 at a concrete playing state whose bird is about to leave the field: the run ends and
the best score is the maximum of the old best and the final score. -/
theorem C6_bestScore_is_running_max_witness :
    (update halfRnd 16 fallingBird).bestScore =
      max fallingBird.bestScore (update halfRnd 16 fallingBird).score :=
  (C6_bestScore_is_running_max halfRnd 16 fallingBird).2.2.1 rfl (by decide!)

/-- C7. `generatePipe` appends a pipe with `bottomY = topHeight + pipeGap` for the gap in
force; after any `update` step the gaps (`topHeight`, `bottomY`) of the pipes in the list
are, in order, gaps of the pipes that were in the list or of the pipe spawned in the step. -/
theorem C7_gap_fixed_at_creation (rnd : ℕ → ℚ) (dt : ℚ) (k : ℕ) (s : Game) :
    ((generatePipe rnd k s).pipes = s.pipes ++ [newPipe (rnd k) s] ∧
      (newPipe (rnd k) s).bottomY = (newPipe (rnd k) s).topHeight + s.pipeGap) ∧
    ((update rnd dt s).pipes.map gapOf).Sublist
      ((s.pipes ++ [newPipe (rnd 0) s]).map gapOf) ∧
    ((update rnd dt s).pipes.map gapOf).Sublist ((afterSpawn rnd s).pipes.map gapOf) := by
  have h3 : ((update rnd dt s).pipes.map gapOf).Sublist ((afterSpawn rnd s).pipes.map gapOf) := by
    by_cases hplay : s.gameState = GameState.playing
    · rw [update_playing rnd dt s hplay]
      by_cases hb : (updateBird s).bird.y < 0 ∨ (updateBird s).bird.y > (s.canvasHeight : ℚ) - 50
      · rw [if_pos hb, gameOver_pipes, updateBird_cosmetic_pipes]
        rcases afterSpawn_pipes rnd s with e | e
        · rw [e]
        · rw [e]
          exact (List.sublist_append_left _ _).map gapOf
      · rw [if_neg hb]
        exact updatePipes_gaps rnd _ _ _
    · have e : update rnd dt s = s := by
        simp only [update, ne_eq, hplay, not_false_eq_true, if_true]
      rw [e]
      rcases afterSpawn_pipes rnd s with e | e
      · rw [e]
      · rw [e]
        exact (List.sublist_append_left _ _).map gapOf
  refine ⟨⟨rfl, rfl⟩, ?_, h3⟩
  refine h3.trans ?_
  rcases afterSpawn_pipes rnd s with e | e
  · rw [e]
    exact (List.sublist_append_left _ _).map gapOf
  · rw [e]

/-- C8. In a playing state, the bird's new y is `y + clamp(velocity + gravity)`; if it is
below `0` or above `canvasHeight - 50`, `update` ends in `gameOver` with
`bestScore = max(bestScore, score)` and the pipe list and score untouched; if it lies in
`[0, canvasHeight - 50]`, `update` goes on to the spawn test and the pipe loop. -/
theorem C8_boundary_breach_is_terminal (rnd : ℕ → ℚ) (dt : ℚ) (s : Game)
    (h : s.gameState = GameState.playing) :
    (updateBird s).bird.y =
      s.bird.y + max s.minVelocity (min s.maxVelocity (s.bird.velocity + s.gravity)) ∧
    ((updateBird s).bird.y < 0 ∨ (updateBird s).bird.y > (s.canvasHeight : ℚ) - 50 →
      (update rnd dt s).gameState = GameState.gameOver ∧
      (update rnd dt s).bestScore = max s.bestScore s.score ∧
      (update rnd dt s).pipes = s.pipes ∧
      (update rnd dt s).score = s.score) ∧
    (0 ≤ (updateBird s).bird.y ∧ (updateBird s).bird.y ≤ (s.canvasHeight : ℚ) - 50 →
      update rnd dt s =
        updatePipes rnd (afterSpawn rnd s).pipes.length
          (if needsPipe (updateShake (updateParticles (updateBird s))) then 1 else 0)
          (afterSpawn rnd s)) := by
  refine ⟨rfl, ?_, ?_⟩
  · intro hb
    rw [update_playing rnd dt s h, if_pos hb, gameOver_gameState, gameOver_bestScore,
      gameOver_pipes, gameOver_score, updateBird_cosmetic_pipes,
      (updateBird_cosmetic_score s).1, (updateBird_cosmetic_score s).2]
    exact ⟨rfl, rfl, rfl, rfl⟩
  · rintro ⟨h0, h1⟩
    have hb : ¬ ((updateBird s).bird.y < 0 ∨
        (updateBird s).bird.y > (s.canvasHeight : ℚ) - 50) := by
      rintro (hl | hr)
      · exact absurd h0 (not_le.mpr hl)
      · exact absurd h1 (not_le.mpr hr)
    rw [update_playing rnd dt s h, if_neg hb]

/-- C8 at a playing state with score 3, best score 2 and the bird at y = 589 falling at
velocity 7 in a field of height 640: the step ends the run, the best score becomes 3 and
the pipe list and score are unchanged. -/
theorem C8_boundary_breach_is_terminal_witness :
    (update halfRnd 16 fallingBird).gameState = GameState.gameOver ∧
    (update halfRnd 16 fallingBird).bestScore = max fallingBird.bestScore fallingBird.score ∧
    (update halfRnd 16 fallingBird).pipes = fallingBird.pipes ∧
    (update halfRnd 16 fallingBird).score = fallingBird.score :=
  (C8_boundary_breach_is_terminal halfRnd 16 fallingBird rfl).2.1 (Or.inr (by decide!))

/-- C9. Outside `playing`, `update` returns the state unchanged, whatever `deltaTime` is,
and so does any sequence of `update` calls; the state `gameOver` leaves behind is such a
state, so after a run has ended further `update` calls change nothing. -/
theorem C9_update_noop_outside_playing (s : Game) (h : s.gameState ≠ GameState.playing) :
    (∀ (rnd : ℕ → ℚ) (dt : ℚ), update rnd dt s = s) ∧
    (∀ calls : List ((ℕ → ℚ) × ℚ), calls.foldl (fun t c => update c.1 c.2 t) s = s) ∧
    (∀ (t : Game) (calls : List ((ℕ → ℚ) × ℚ)),
      calls.foldl (fun u c => update c.1 c.2 u) (gameOver t) = gameOver t) := by
  have hfold : ∀ (u : Game), u.gameState ≠ GameState.playing →
      ∀ calls : List ((ℕ → ℚ) × ℚ), calls.foldl (fun t c => update c.1 c.2 t) u = u := by
    intro u hu calls
    induction calls with
    | nil => rfl
    | cons c cs ih =>
      rw [List.foldl_cons, update_not_playing c.1 c.2 u hu]
      exact ih
  refine ⟨fun rnd dt => update_not_playing rnd dt s h, hfold s h, ?_⟩
  intro t calls
  refine hfold _ ?_ calls
  rw [gameOver_gameState]
  decide

/-- C9 at the paused sample run: three frames with different `deltaTime` leave it as it
is. -/
theorem C9_update_noop_outside_playing_witness :
    [(halfRnd, (16 : ℚ)), (halfRnd, 33), (halfRnd, 1000)].foldl
      (fun t c => update c.1 c.2 t) (pauseGame risingBird) = pauseGame risingBird :=
  (C9_update_noop_outside_playing (pauseGame risingBird) (by decide)).2.1 _

/-- C10. A reachable counterexample: a first run on a 360 × 640 window reaches score 8 and
level 2 and ends; `startGame` then sets `difficultyLevel` back to `1` but leaves
`pipeSpeed = 1.4`, `pipeGap = 192` and `gravity = 0.28`, which are not the clamped
functions of level 1 (`1.2`, `200`, `0.25`).  `updateDifficulty` itself always leaves the
three tunables equal to the clamped functions of the level. -/
theorem C10_startGame_keeps_stale_tunables :
    (Reachable endedRun ∧ endedRun.gameState = GameState.gameOver ∧
      endedRun.score = 8 ∧ endedRun.difficultyLevel = 2) ∧
    (Reachable restartedRun ∧ restartedRun.gameState = GameState.playing ∧
      restartedRun.difficultyLevel = 1 ∧ restartedRun.pipeSpeed = 7 / 5 ∧
      restartedRun.pipeGap = 192 ∧ restartedRun.gravity = 7 / 25) ∧
    (restartedRun.pipeSpeed ≠ min (1.2 + ((restartedRun.difficultyLevel : ℚ) - 1) * 0.2) 3 ∧
      restartedRun.pipeGap ≠ max (200 - ((restartedRun.difficultyLevel : ℚ) - 1) * 8) 160 ∧
      restartedRun.gravity ≠ min (0.25 + ((restartedRun.difficultyLevel : ℚ) - 1) * 0.03) 0.45) ∧
    (∀ s : Game,
      (updateDifficulty s).pipeSpeed =
        min (1.2 + (((updateDifficulty s).difficultyLevel : ℚ) - 1) * 0.2) 3 ∧
      (updateDifficulty s).pipeGap =
        max (200 - (((updateDifficulty s).difficultyLevel : ℚ) - 1) * 8) 160 ∧
      (updateDifficulty s).gravity =
        min (0.25 + (((updateDifficulty s).difficultyLevel : ℚ) - 1) * 0.03) 0.45) := by
  have hl : restartedRun.difficultyLevel = 1 := by
    rw [restartedRun]; exact (startGame_tunables endedRun).1
  have hs : restartedRun.pipeSpeed = 7 / 5 := by
    rw [restartedRun, (startGame_tunables endedRun).2.1, endedRun_eq]; rfl
  have hg : restartedRun.pipeGap = 192 := by
    rw [restartedRun, (startGame_tunables endedRun).2.2.1, endedRun_eq]; rfl
  have hv : restartedRun.gravity = 7 / 25 := by
    rw [restartedRun, (startGame_tunables endedRun).2.2.2, endedRun_eq]; rfl
  have hp : restartedRun.gameState = GameState.playing := by
    rw [restartedRun]; exact startGame_gameState endedRun
  refine ⟨⟨reachable_endedRun, ?_, ?_, ?_⟩, ⟨reachable_restartedRun, hp, hl, hs, hg, hv⟩,
    ⟨?_, ?_, ?_⟩, ?_⟩
  · rw [endedRun_eq]; rfl
  · rw [endedRun_eq]; rfl
  · rw [endedRun_eq]; rfl
  · rw [hs, hl]; norm_num
  · rw [hg, hl]; norm_num
  · rw [hv, hl]; norm_num
  · intro s
    simp only [updateDifficulty]
    split_ifs <;> exact ⟨rfl, rfl, rfl⟩

/-- C11. `pauseGame` changes nothing unless the game is playing, `resumeGame` changes nothing
unless it is paused, `jump` changes nothing when the game is over or paused, and none of the
three leaves `gameOver`. -/
theorem C11_control_events_noop (rnd : ℕ → ℚ) (s : Game) :
    (s.gameState ≠ GameState.playing → pauseGame s = s) ∧
    (s.gameState ≠ GameState.paused → resumeGame s = s) ∧
    (s.gameState = GameState.gameOver ∨ s.gameState = GameState.paused → jump rnd s = s) ∧
    (s.gameState = GameState.gameOver →
      (pauseGame s).gameState = GameState.gameOver ∧
      (resumeGame s).gameState = GameState.gameOver ∧
      (jump rnd s).gameState = GameState.gameOver) := by
  refine ⟨pauseGame_not_playing s, resumeGame_not_paused s, ?_, ?_⟩
  · rintro (h | h)
    · exact jump_idle rnd s (by rw [h]; decide) (by rw [h]; decide)
    · exact jump_idle rnd s (by rw [h]; decide) (by rw [h]; decide)
  · intro h
    rw [pauseGame_not_playing s (by rw [h]; decide), resumeGame_not_paused s (by rw [h]; decide),
      jump_idle rnd s (by rw [h]; decide) (by rw [h]; decide)]
    exact ⟨h, h, h⟩

/-- C16. On the start screen, `jump` does exactly what `startGame` does: the game is playing,
the bird rests at mid-height with velocity `0` (not `jumpPower`), the score is `0`, the
level `1` and the pipe list empty. -/
theorem C16_jump_on_start_screen (rnd : ℕ → ℚ) (s : Game)
    (h : s.gameState = GameState.start) :
    jump rnd s = startGame s ∧
    (jump rnd s).gameState = GameState.playing ∧
    (jump rnd s).bird.velocity = 0 ∧
    (jump rnd s).bird.y = (s.canvasHeight : ℚ) / 2 ∧
    (jump rnd s).score = 0 ∧
    (jump rnd s).difficultyLevel = 1 ∧
    (jump rnd s).pipes = [] := by
  have e : jump rnd s = startGame s := by
    simp only [jump, h]
    rfl
  rw [e]
  exact ⟨rfl, rfl, rfl, rfl, rfl, rfl, rfl⟩

/-- C16 at the constructor's state on a 360 × 640 window. -/
theorem C16_jump_on_start_screen_witness :
    jump halfRnd (constructor 150 360 640 none) = startGame (constructor 150 360 640 none) ∧
    (jump halfRnd (constructor 150 360 640 none)).bird.velocity = 0 :=
  ⟨(C16_jump_on_start_screen halfRnd (constructor 150 360 640 none) rfl).1,
   (C16_jump_on_start_screen halfRnd (constructor 150 360 640 none) rfl).2.2.1⟩

/-- C17. On a playing state `pauseGame` changes only `gameState`, `resumeGame` undoes it, and
`update` calls made while paused, with any `deltaTime`, leave no trace. -/
theorem C17_pause_resume_identity (s : Game) (h : s.gameState = GameState.playing) :
    pauseGame s = { s with gameState := GameState.paused } ∧
    resumeGame (pauseGame s) = s ∧
    ∀ calls : List ((ℕ → ℚ) × ℚ),
      resumeGame (calls.foldl (fun t c => update c.1 c.2 t) (pauseGame s)) = s := by
  refine ⟨pauseGame_playing s h, resumeGame_pauseGame s h, ?_⟩
  intro calls
  have hp : (pauseGame s).gameState ≠ GameState.playing := by
    rw [pauseGame_playing s h]
    show GameState.paused ≠ GameState.playing
    decide
  have hfold : calls.foldl (fun t c => update c.1 c.2 t) (pauseGame s) = pauseGame s := by
    induction calls with
    | nil => rfl
    | cons c cs ih =>
      rw [List.foldl_cons, update_not_playing c.1 c.2 _ hp]
      exact ih
  rw [hfold]
  exact resumeGame_pauseGame s h

/-- C17 at a playing state, with three frames of different `deltaTime` while paused. -/
theorem C17_pause_resume_identity_witness :
    resumeGame ([(halfRnd, (16 : ℚ)), (halfRnd, 5000), (halfRnd, 33)].foldl
      (fun t c => update c.1 c.2 t) (pauseGame risingBird)) = risingBird :=
  (C17_pause_resume_identity risingBird rfl).2.2 _

/-- C18. The tunables `updateDifficulty` assigns are the functions `pipeSpeedAt`,
`gravityAt` and `pipeGapAt` of the level; for levels `1 ≤ L ≤ L'` speed and gravity are
non-decreasing and capped at `3` and `0.45`, the gap is non-increasing and at least `160`,
and at level `1` they are `1.2`, `0.25` and `200`. -/
theorem C18_tunables_monotone_clamped :
    (∀ s : Game,
      (updateDifficulty s).pipeSpeed = pipeSpeedAt (updateDifficulty s).difficultyLevel ∧
      (updateDifficulty s).gravity = gravityAt (updateDifficulty s).difficultyLevel ∧
      (updateDifficulty s).pipeGap = pipeGapAt (updateDifficulty s).difficultyLevel) ∧
    (pipeSpeedAt 1 = 1.2 ∧ gravityAt 1 = 0.25 ∧ pipeGapAt 1 = 200) ∧
    (∀ L L2 : ℤ, 1 ≤ L → L ≤ L2 →
      (pipeSpeedAt L ≤ pipeSpeedAt L2 ∧ pipeSpeedAt L2 ≤ 3) ∧
      (gravityAt L ≤ gravityAt L2 ∧ gravityAt L2 ≤ 0.45) ∧
      (pipeGapAt L ≥ pipeGapAt L2 ∧ pipeGapAt L2 ≥ 160)) := by
  refine ⟨?_, ⟨?_, ?_, ?_⟩, ?_⟩
  · intro s
    simp only [updateDifficulty]
    split_ifs <;> exact ⟨rfl, rfl, rfl⟩
  · norm_num [pipeSpeedAt]
  · norm_num [gravityAt]
  · norm_num [pipeGapAt]
  · intro L L2 _ h
    exact ⟨⟨pipeSpeedAt_mono h, min_le_right _ _⟩, ⟨gravityAt_mono h, min_le_right _ _⟩,
      ⟨pipeGapAt_anti h, le_max_right _ _⟩⟩

/-- C13 as stated fails on a low window: on a freshly started game with field height 300
and `pipeGap = 200`, the draw `r = 1/2` lies in `[0, 1)`, `update` passes the boundary check
and spawns a pipe whose `topHeight` is `50`, outside `[60, 300 - 200 - 60]`. -/
theorem C13_low_window_counterexample :
    Reachable lowWindow ∧ (0 ≤ halfRnd 0 ∧ halfRnd 0 < 1) ∧
    (update halfRnd 16 lowWindow).pipes =
      [{ x := 1794 / 5, topHeight := 50, bottomY := 250, scored := false }] ∧
    ¬ (60 ≤ (newPipe (halfRnd 0) lowWindow).topHeight ∧
       (newPipe (halfRnd 0) lowWindow).topHeight ≤
         (lowWindow.canvasHeight : ℚ) - lowWindow.pipeGap - 60) := by
  refine ⟨reachable_lowWindow, by decide!, by decide!, by decide!⟩

/-- C13 (amended). In a playing state whose `update` passes the boundary check, a pipe is
spawned exactly when the list is empty or the last pipe's x is below `canvasWidth - 200`,
and at most one is spawned; the spawned pipe has `x = canvasWidth` and `scored = false`, and
when `canvasHeight ≥ pipeGap + 120` and the draw is in `[0, 1)` its `topHeight` lies in
`[60, canvasHeight - pipeGap - 60]`. -/
theorem C13_spawn_rule (rnd : ℕ → ℚ) (dt : ℚ) (s : Game)
    (h : s.gameState = GameState.playing)
    (hb : 0 ≤ (updateBird s).bird.y ∧ (updateBird s).bird.y ≤ (s.canvasHeight : ℚ) - 50) :
    (update rnd dt s =
      updatePipes rnd (afterSpawn rnd s).pipes.length
        (if needsPipe (updateShake (updateParticles (updateBird s))) then 1 else 0)
        (afterSpawn rnd s)) ∧
    ((s.pipes = [] ∨ ∃ last : Pipe, s.pipes.getLast? = some last ∧
        last.x < (s.canvasWidth : ℚ) - 200) →
      (afterSpawn rnd s).pipes = s.pipes ++ [newPipe (rnd 0) s]) ∧
    (¬ (s.pipes = [] ∨ ∃ last : Pipe, s.pipes.getLast? = some last ∧
        last.x < (s.canvasWidth : ℚ) - 200) →
      (afterSpawn rnd s).pipes = s.pipes) ∧
    (update rnd dt s).pipes.length ≤ s.pipes.length + 1 ∧
    ((newPipe (rnd 0) s).x = (s.canvasWidth : ℚ) ∧ (newPipe (rnd 0) s).scored = false) ∧
    (s.pipeGap + 120 ≤ (s.canvasHeight : ℚ) → 0 ≤ rnd 0 → rnd 0 < 1 →
      60 ≤ (newPipe (rnd 0) s).topHeight ∧
      (newPipe (rnd 0) s).topHeight ≤ (s.canvasHeight : ℚ) - s.pipeGap - 60) := by
  have hnb : ¬ ((updateBird s).bird.y < 0 ∨
      (updateBird s).bird.y > (s.canvasHeight : ℚ) - 50) := by
    rintro (hl | hr)
    · exact absurd hb.1 (not_le.mpr hl)
    · exact absurd hb.2 (not_le.mpr hr)
  refine ⟨?_, ?_, ?_, ?_, ⟨rfl, rfl⟩, newPipe_topHeight_bounds (rnd 0) s⟩
  · rw [update_playing rnd dt s h, if_neg hnb]
  · intro hc
    rw [afterSpawn_pipes_eq, if_pos ((needsPipe_iff s).2 hc)]
  · intro hc
    rw [afterSpawn_pipes_eq, if_neg (fun hn => hc ((needsPipe_iff s).1 hn))]
  · exact update_pipes_length_le rnd dt s

/-- C13 (amended) at a freshly started game on a 360 × 640 window: the first frame passes
the boundary check and spawns one pipe at `x = 360` with `topHeight = 200`, inside
`[60, 380]`. -/
theorem C13_spawn_rule_witness :
    (afterSpawn halfRnd (startGame (constructor 150 360 640 none))).pipes =
      (startGame (constructor 150 360 640 none)).pipes ++
        [newPipe (halfRnd 0) (startGame (constructor 150 360 640 none))] ∧
    60 ≤ (newPipe (halfRnd 0) (startGame (constructor 150 360 640 none))).topHeight ∧
    (newPipe (halfRnd 0) (startGame (constructor 150 360 640 none))).topHeight ≤
      ((startGame (constructor 150 360 640 none)).canvasHeight : ℚ) -
        (startGame (constructor 150 360 640 none)).pipeGap - 60 :=
  ⟨(C13_spawn_rule halfRnd 16 (startGame (constructor 150 360 640 none)) rfl
      (by decide!)).2.1 (Or.inl rfl),
   (C13_spawn_rule halfRnd 16 (startGame (constructor 150 360 640 none)) rfl
      (by decide!)).2.2.2.2.2 (by decide!) (by decide!) (by decide!)⟩

/-- C12. In a loop iteration of `update` whose moved pipe is still on screen and does not
collide: if the pipe was unscored and its right edge is left of the bird, the iteration marks
it scored and raises the score by exactly 1; if it was already scored, the iteration leaves
the score as it is and the pipe scored.  A whole `update` raises the score by at most the
number of unscored pipes.  A bird of size 25 at `y = 300` never collides with a pipe whose
gap is `[200, 400]`, and in the scenario the score goes `0, 1, 1` over three frames. -/
theorem C12_pipe_scores_once (rnd : ℕ → ℚ) (i k : ℕ) (s : Game) (p0 : Pipe)
    (hget : s.pipes.get? i = some p0)
    (hon : ¬ (movedPipe s p0).x + s.pipeWidth < 0)
    (hnc : checkCollision s s.bird (movedPipe s p0) = false) :
    (p0.scored = false → (movedPipe s p0).x + s.pipeWidth < s.bird.x →
      updatePipes rnd (i + 1) k s =
        updatePipes rnd i (k + 25) (scoreEvent rnd k s
          ((s.pipes.set i (movedPipe s p0)).set i { movedPipe s p0 with scored := true })) ∧
      (scoreEvent rnd k s
        ((s.pipes.set i (movedPipe s p0)).set i { movedPipe s p0 with scored := true })).score
          = s.score + 1 ∧
      (scoreEvent rnd k s
        ((s.pipes.set i (movedPipe s p0)).set i { movedPipe s p0 with scored := true })).pipes.get? i
          = some { movedPipe s p0 with scored := true }) ∧
    (p0.scored = true →
      updatePipes rnd (i + 1) k s =
        updatePipes rnd i k { s with pipes := s.pipes.set i (movedPipe s p0) } ∧
      ({ s with pipes := s.pipes.set i (movedPipe s p0) } : Game).score = s.score ∧
      (s.pipes.set i (movedPipe s p0)).get? i = some (movedPipe s p0) ∧
      (movedPipe s p0).scored = true) ∧
    (∀ (dt : ℚ) (t : Game),
      (update rnd dt t).score ≤ t.score + unscored (afterSpawn rnd t).pipes) ∧
    (∀ (t : Game) (b : Bird) (x : ℚ) (sc : Bool), b.size = 25 → b.y = 300 →
      checkCollision t b { x := x, topHeight := 200, bottomY := 400, scored := sc } = false) ∧
    ((update halfRnd 16 passingBird).bird.y = 300 ∧
      (update halfRnd 16 passingBird).gameState = GameState.playing ∧
      (update halfRnd 16 passingBird).score = 0 ∧
      (update halfRnd 16 (update halfRnd 16 passingBird)).bird.y = 300 ∧
      (update halfRnd 16 (update halfRnd 16 passingBird)).gameState = GameState.playing ∧
      (update halfRnd 16 (update halfRnd 16 passingBird)).score = 1 ∧
      (update halfRnd 16 (update halfRnd 16 (update halfRnd 16 passingBird))).gameState =
        GameState.playing ∧
      (update halfRnd 16 (update halfRnd 16 (update halfRnd 16 passingBird))).score = 1) := by
  have hlt : i < s.pipes.length := by
    rcases Nat.lt_or_ge i s.pipes.length with h | h
    · exact h
    · rw [List.get?_eq_none.mpr h] at hget
      exact absurd hget (by simp)
  have hc : ¬ checkCollision s s.bird (movedPipe s p0) = true := by
    rw [hnc]; decide
  refine ⟨?_, ?_, update_score_le_unscored rnd, ?_, ?_⟩
  · intro hs hpass
    have hcond : ¬ (movedPipe s p0).scored = true ∧
        (movedPipe s p0).x + s.pipeWidth < s.bird.x := by
      refine ⟨?_, hpass⟩
      show ¬ p0.scored = true
      rw [hs]; decide
    refine ⟨?_, scoreEvent_score _ _ _ _, ?_⟩
    · rw [updatePipes_succ rnd i k s p0 hget, if_neg hon, if_neg hc, if_pos hcond]
    · rw [scoreEvent_pipes]
      exact get?_set_self _ _ _ (by rw [List.length_set]; exact hlt)
  · intro hs
    have hcond : ¬ (¬ (movedPipe s p0).scored = true ∧
        (movedPipe s p0).x + s.pipeWidth < s.bird.x) := by
      rintro ⟨h, -⟩
      exact h hs
    refine ⟨?_, rfl, get?_set_self _ _ _ hlt, hs⟩
    rw [updatePipes_succ rnd i k s p0 hget, if_neg hon, if_neg hc, if_neg hcond]
  · intro t b x sc hsz hy
    refine checkCollision_in_gap t b _ ?_ ?_
    · show (200 : ℚ) ≤ b.y - b.size / 2
      rw [hsz, hy]; norm_num
    · show b.y + b.size / 2 ≤ (400 : ℚ)
      rw [hsz, hy]; norm_num
  · decide!

/-- C12 at the scenario's second frame: the pipe at index 0, moved to `x = 53.8`, is on
screen, does not collide and is unscored with its right edge left of the bird, so the
iteration scores it. -/
theorem C12_pipe_scores_once_witness :
    (scoreEvent halfRnd 0 (afterSpawn halfRnd (update halfRnd 16 passingBird))
      (((afterSpawn halfRnd (update halfRnd 16 passingBird)).pipes.set 0
        (movedPipe (afterSpawn halfRnd (update halfRnd 16 passingBird))
          { x := 55, topHeight := 200, bottomY := 400, scored := false })).set 0
        { movedPipe (afterSpawn halfRnd (update halfRnd 16 passingBird))
            { x := 55, topHeight := 200, bottomY := 400, scored := false } with
          scored := true })).score =
      (afterSpawn halfRnd (update halfRnd 16 passingBird)).score + 1 :=
  ((C12_pipe_scores_once halfRnd 0 0 (afterSpawn halfRnd (update halfRnd 16 passingBird))
    { x := 55, topHeight := 200, bottomY := 400, scored := false }
    (by decide!) (by decide!) (by decide!)).1 rfl (by decide!)).2.1

/-- C19 as stated fails at a reachable state: in the frame after `divingBird` the pipe at
index 0 collides (the pipe at index 1 does not) and the run ends, yet the pipe at index 1,
above the colliding one, has been advanced from `x = 264` to `x = 262.8` instead of being
left untouched. -/
theorem C19_oldest_first_counterexample :
    Reachable divingBird ∧ divingBird.gameState = GameState.playing ∧
    divingBird.pipes = [⟨318 / 5, 220, 420, false⟩, ⟨264, 220, 420, false⟩] ∧
    (update halfRnd 16 divingBird).gameState = GameState.gameOver ∧
    checkCollision (afterSpawn halfRnd divingBird) (afterSpawn halfRnd divingBird).bird
      (movedPipe (afterSpawn halfRnd divingBird) ⟨318 / 5, 220, 420, false⟩) = true ∧
    checkCollision (afterSpawn halfRnd divingBird) (afterSpawn halfRnd divingBird).bird
      (movedPipe (afterSpawn halfRnd divingBird) ⟨264, 220, 420, false⟩) = false ∧
    (update halfRnd 16 divingBird).pipes =
      [⟨312 / 5, 220, 420, false⟩, ⟨1314 / 5, 220, 420, false⟩] ∧
    (update halfRnd 16 divingBird).pipes.get? 1 ≠ divingBird.pipes.get? 1 := by
  refine ⟨reachable_divingBird, rfl, rfl, ?_⟩
  decide!

/-- C15. If two states agree on the gameplay fields (game state, the bird's x, y, velocity
and size, pipes, score, best score, level, the settings and the field size), then after
`startGame`, `jump`, `pauseGame`, `resumeGame` or `update` with the same draw for the pipe
they agree on them again, whatever their particles, screen shake and bird rotation are. -/
theorem C15_cosmetics_do_not_feed_back (rnd : ℕ → ℚ) (dt : ℚ) (s t : Game)
    (h : gameplay s = gameplay t) :
    gameplay (startGame s) = gameplay (startGame t) ∧
    gameplay (jump rnd s) = gameplay (jump rnd t) ∧
    gameplay (pauseGame s) = gameplay (pauseGame t) ∧
    gameplay (resumeGame s) = gameplay (resumeGame t) ∧
    gameplay (update rnd dt s) = gameplay (update rnd dt t) ∧
    (∀ (rnd2 : ℕ → ℚ) (dt2 : ℚ), rnd 0 = rnd2 0 →
      gameplay (update rnd dt s) = gameplay (update rnd2 dt2 t) ∧
      gameplay (jump rnd s) = gameplay (jump rnd2 t)) :=
  ⟨gameplay_startGame h, gameplay_jump rnd rnd h, gameplay_pauseGame h, gameplay_resumeGame h,
    gameplay_update rnd rnd dt dt h rfl,
    fun rnd2 dt2 h0 => ⟨gameplay_update rnd rnd2 dt dt2 h h0, gameplay_jump rnd rnd2 h⟩⟩

/-- C15 at two states that differ only in particles, screen shake and rotation. -/
theorem C15_cosmetics_do_not_feed_back_witness :
    gameplay (update halfRnd 16 risingBird) =
      gameplay (update halfRnd 16 (recolor risingBird
        [{ x := 1, y := 2, vx := 3, vy := 4, life := 5, maxLife := 30, hue := 40 }] 3 (2 / 5)
        0 1 none)) :=
  (C15_cosmetics_do_not_feed_back halfRnd 16 risingBird
    (recolor risingBird
      [{ x := 1, y := 2, vx := 3, vy := 4, life := 5, maxLife := 30, hue := 40 }] 3 (2 / 5)
      0 1 none) rfl).2.2.2.2.1

/-- C19 (amended). `update` visits the pipes newest first (highest index first) and stops at
the first collision.  In a playing state that passes the boundary check, let the pipe list
after the spawn test be `pre ++ p0 :: rest` and let `sweepAbove rnd s rest` be what the loop
makes of the pipes `rest` above `p0` (each advanced by the pipe speed then in force, removed
when off screen, scored when it passes the bird, as the loop iteration written out in the
last part says).  If a pipe of `rest` collides, the run ends there and `p0` and the pipes
below it are untouched.  Otherwise, if the moved `p0` is on screen and collides, `update`
ends in `gameOver` with the pipes above `p0` as the loop left them and every pipe below it
untouched; when the pipes above are only advanced they are exactly `rest` moved by the
pipe speed. -/
theorem C19_newest_first_stop_at_collision (rnd : ℕ → ℚ) (dt : ℚ) (s : Game)
    (pre rest : List Pipe) (p0 : Pipe)
    (hplay : s.gameState = GameState.playing)
    (hb : 0 ≤ (updateBird s).bird.y ∧ (updateBird s).bird.y ≤ (s.canvasHeight : ℚ) - 50)
    (hs : (afterSpawn rnd s).pipes = pre ++ p0 :: rest) :
    ((sweepAbove rnd s rest).gameState = GameState.gameOver →
      update rnd dt s = { sweepAbove rnd s rest with
        pipes := pre ++ p0 :: (sweepAbove rnd s rest).pipes }) ∧
    ((sweepAbove rnd s rest).gameState ≠ GameState.gameOver →
      ¬ (movedPipe (sweepAbove rnd s rest) p0).x + (sweepAbove rnd s rest).pipeWidth < 0 →
      checkCollision (sweepAbove rnd s rest) (sweepAbove rnd s rest).bird
        (movedPipe (sweepAbove rnd s rest) p0) = true →
      update rnd dt s = gameOver { sweepAbove rnd s rest with
        pipes := pre ++ movedPipe (sweepAbove rnd s rest) p0 ::
          (sweepAbove rnd s rest).pipes } ∧
      (update rnd dt s).gameState = GameState.gameOver ∧
      (update rnd dt s).pipes =
        pre ++ movedPipe (sweepAbove rnd s rest) p0 :: (sweepAbove rnd s rest).pipes) ∧
    ((∀ p ∈ rest, onlyAdvanced (afterSpawn rnd s) p) →
      (sweepAbove rnd s rest).gameState ≠ GameState.gameOver ∧
      (sweepAbove rnd s rest).pipes = rest.map (movedPipe (afterSpawn rnd s)) ∧
      movedPipe (sweepAbove rnd s rest) p0 = movedPipe (afterSpawn rnd s) p0) ∧
    (∀ (k : ℕ) (t : Game) (below above : List Pipe) (p : Pipe),
      t.pipes = below ++ p :: above →
      ¬ (movedPipe t p).x + t.pipeWidth < 0 →
      checkCollision t t.bird (movedPipe t p) = true →
      updatePipes rnd (below.length + 1) k t =
        gameOver { t with pipes := below ++ movedPipe t p :: above }) ∧
    (∀ (k : ℕ) (t : Game) (below above : List Pipe) (p : Pipe),
      t.pipes = below ++ p :: above →
      (movedPipe t p).x = p.x - t.pipeSpeed * t.gameSpeed ∧
      updatePipes rnd (below.length + 1) k t =
        if (movedPipe t p).x + t.pipeWidth < 0 then
          updatePipes rnd below.length k { t with pipes := below ++ above }
        else if checkCollision t t.bird (movedPipe t p) = true then
          gameOver { t with pipes := below ++ movedPipe t p :: above }
        else if ¬ (movedPipe t p).scored = true ∧
            (movedPipe t p).x + t.pipeWidth < t.bird.x then
          updatePipes rnd below.length (k + 25) (scoreEvent rnd k t
            (below ++ { movedPipe t p with scored := true } :: above))
        else
          updatePipes rnd below.length k { t with pipes := below ++ movedPipe t p :: above }) := by
  have hnb : ¬ ((updateBird s).bird.y < 0 ∨
      (updateBird s).bird.y > (s.canvasHeight : ℚ) - 50) := by
    rintro (hl | hr)
    · exact absurd hb.1 (not_le.mpr hl)
    · exact absurd hb.2 (not_le.mpr hr)
  have hstop : ∀ (k : ℕ) (t : Game) (below above : List Pipe) (p : Pipe),
      t.pipes = below ++ p :: above →
      ¬ (movedPipe t p).x + t.pipeWidth < 0 →
      checkCollision t t.bird (movedPipe t p) = true →
      updatePipes rnd (below.length + 1) k t =
        gameOver { t with pipes := below ++ movedPipe t p :: above } := by
    intro k t below above p ht h1 h2
    rw [updatePipes_append rnd k t below above p ht, if_neg h1, if_pos h2]
  have hA : (afterSpawn rnd s).gameState ≠ GameState.gameOver := by
    rw [afterSpawn_gameState, hplay]; decide
  have hlen : (afterSpawn rnd s).pipes.length = (pre ++ [p0]).length + rest.length := by
    rw [hs]; simp only [List.length_append, List.length_cons, List.length_nil]; omega
  have hsA : afterSpawn rnd s =
      { afterSpawn rnd s with pipes := (pre ++ [p0]) ++ (rest ++ []) } :=
    afterSpawn_eq_with_pipes rnd s _ (by rw [hs]; simp)
  have hloc := updatePipes_local rnd rest (pre ++ [p0]) []
    (if needsPipe (updateShake (updateParticles (updateBird s))) then 1 else 0)
    (afterSpawn rnd s) hA
  rw [List.append_nil] at hloc
  have hupd : update rnd dt s =
      updatePipes rnd ((pre ++ [p0]).length + rest.length)
        (if needsPipe (updateShake (updateParticles (updateBird s))) then 1 else 0)
        { afterSpawn rnd s with pipes := (pre ++ [p0]) ++ rest } := by
    rw [update_playing rnd dt s hplay, if_neg hnb, hlen]
    congr 1
    rw [List.append_nil] at hsA
    exact hsA
  have hfirst : (sweepAbove rnd s rest).gameState = GameState.gameOver →
      update rnd dt s = { sweepAbove rnd s rest with
        pipes := pre ++ p0 :: (sweepAbove rnd s rest).pipes } := by
    intro hg
    rw [hupd, hloc.1 hg]
    show ({ sweepAbove rnd s rest with
      pipes := (pre ++ [p0]) ++ (sweepAbove rnd s rest).pipes } : Game) = _
    simp
  have hmain : (sweepAbove rnd s rest).gameState ≠ GameState.gameOver →
      ¬ (movedPipe (sweepAbove rnd s rest) p0).x + (sweepAbove rnd s rest).pipeWidth < 0 →
      checkCollision (sweepAbove rnd s rest) (sweepAbove rnd s rest).bird
        (movedPipe (sweepAbove rnd s rest) p0) = true →
      update rnd dt s = gameOver { sweepAbove rnd s rest with
        pipes := pre ++ movedPipe (sweepAbove rnd s rest) p0 ::
          (sweepAbove rnd s rest).pipes } := by
    intro hno hon hcol
    obtain ⟨k2, hk2⟩ := hloc.2 hno
    have hl2 : (pre ++ [p0]).length = pre.length + 1 := by simp
    rw [hupd, hk2, hl2]
    exact hstop k2 { sweepAbove rnd s rest with
        pipes := (pre ++ [p0]) ++ (sweepAbove rnd s rest).pipes }
      pre (sweepAbove rnd s rest).pipes p0 (by simp) hon hcol
  refine ⟨hfirst, ?_, ?_, hstop, ?_⟩
  · intro hno hon hcol
    have e := hmain hno hon hcol
    refine ⟨e, ?_, ?_⟩
    · rw [e, gameOver_gameState]
    · rw [e, gameOver_pipes]
  · intro hrest
    have e := sweepAbove_onlyAdvanced rnd s rest hrest
    rw [e]
    exact ⟨hA, rfl, rfl⟩
  · intro k t below above p ht
    exact ⟨rfl, updatePipes_append rnd k t below above p ht⟩

/-- C19 (amended) at `mixedPipes`: the pipe at index 2 is advanced to `x = 358.8`, the pipe
at index 1 is advanced to `x = 38.8` and scored, which raises the pipe speed to `1.4`, and
then the pipe at index 0, advanced to `x = 88.6`, collides and ends the run. -/
theorem C19_newest_first_stop_at_collision_witness :
    (update halfRnd 16 mixedPipes).gameState = GameState.gameOver ∧
    (update halfRnd 16 mixedPipes).pipes =
      [] ++ movedPipe (sweepAbove halfRnd mixedPipes
          [⟨40, 200, 400, false⟩, ⟨360, 220, 420, false⟩]) ⟨90, 300, 500, false⟩ ::
        (sweepAbove halfRnd mixedPipes
          [⟨40, 200, 400, false⟩, ⟨360, 220, 420, false⟩]).pipes ∧
    (update halfRnd 16 mixedPipes).pipes =
      [⟨443 / 5, 300, 500, false⟩, ⟨194 / 5, 200, 400, true⟩, ⟨1794 / 5, 220, 420, false⟩] ∧
    (update halfRnd 16 mixedPipes).score = 8 :=
  ⟨((C19_newest_first_stop_at_collision halfRnd 16 mixedPipes []
      [⟨40, 200, 400, false⟩, ⟨360, 220, 420, false⟩] ⟨90, 300, 500, false⟩ rfl
      (by decide!) (by decide!)).2.1 (by decide!) (by decide!) (by decide!)).2.1,
   ((C19_newest_first_stop_at_collision halfRnd 16 mixedPipes []
      [⟨40, 200, 400, false⟩, ⟨360, 220, 420, false⟩] ⟨90, 300, 500, false⟩ rfl
      (by decide!) (by decide!)).2.1 (by decide!) (by decide!) (by decide!)).2.2,
   by decide!, by decide!⟩

/-- C14. `update` does not depend on `deltaTime`: any two values give the same state, and so
do any two time stamps passed to `gameLoop`.  The increments are fixed per call: while
playing, the new velocity is the clamped sum of the old velocity and `gravity` and the new
y is the old y plus that velocity; every loop iteration first moves its pipe by
`pipeSpeed * gameSpeed`; and in a frame that passes the boundary check in which no pipe is
removed, collides or scores, every pipe has moved by exactly `pipeSpeed * gameSpeed`,
whatever `deltaTime` is. -/
theorem C14_update_ignores_deltaTime (rnd : ℕ → ℚ) (s : Game) :
    (∀ dt1 dt2 : ℚ, update rnd dt1 s = update rnd dt2 s) ∧
    (∀ t1 t2 last1 last2 : ℚ, (gameLoop rnd t1 last1 s).1 = (gameLoop rnd t2 last2 s).1) ∧
    (s.gameState = GameState.playing → ∀ dt : ℚ,
      (update rnd dt s).bird.velocity =
        max s.minVelocity (min s.maxVelocity (s.bird.velocity + s.gravity))) ∧
    (s.gameState = GameState.playing → ∀ dt : ℚ,
      (update rnd dt s).bird.y =
        s.bird.y + max s.minVelocity (min s.maxVelocity (s.bird.velocity + s.gravity))) ∧
    (∀ (i k : ℕ) (p0 : Pipe), s.pipes.get? i = some p0 →
      (movedPipe s p0).x = p0.x - s.pipeSpeed * s.gameSpeed ∧
      updatePipes rnd (i + 1) k s =
        if (movedPipe s p0).x + s.pipeWidth < 0 then
          updatePipes rnd i k { s with pipes := (s.pipes.set i (movedPipe s p0)).eraseIdx i }
        else if checkCollision s s.bird (movedPipe s p0) = true then
          gameOver { s with pipes := s.pipes.set i (movedPipe s p0) }
        else if ¬ (movedPipe s p0).scored = true ∧
            (movedPipe s p0).x + s.pipeWidth < s.bird.x then
          updatePipes rnd i (k + 25) (scoreEvent rnd k s
            ((s.pipes.set i (movedPipe s p0)).set i { movedPipe s p0 with scored := true }))
        else
          updatePipes rnd i k { s with pipes := s.pipes.set i (movedPipe s p0) }) ∧
    (s.gameState = GameState.playing →
      0 ≤ (updateBird s).bird.y ∧ (updateBird s).bird.y ≤ (s.canvasHeight : ℚ) - 50 →
      (∀ p ∈ (afterSpawn rnd s).pipes, onlyAdvanced (afterSpawn rnd s) p) →
      ∀ dt : ℚ, (update rnd dt s).pipes =
        (afterSpawn rnd s).pipes.map
          (fun p => { p with x := p.x - s.pipeSpeed * s.gameSpeed })) ∧
    ((update halfRnd 16 (startGame (constructor 150 360 640 none))).pipes =
        [⟨360 - 6 / 5, 220, 420, false⟩] ∧
      (update halfRnd 5000 (update halfRnd 16 (startGame (constructor 150 360 640 none)))).pipes =
        [⟨360 - 6 / 5 - 6 / 5, 220, 420, false⟩]) := by
  refine ⟨fun _ _ => rfl, fun _ _ _ _ => rfl, ?_, ?_, ?_, ?_, ?_⟩
  · intro h dt
    rw [update_bird rnd dt s h]; rfl
  · intro h dt
    rw [update_bird rnd dt s h]; rfl
  · intro i k p0 hget
    exact ⟨rfl, updatePipes_succ rnd i k s p0 hget⟩
  · intro hplay hb hall dt
    exact update_pipes_onlyAdvanced rnd dt s hplay hb hall
  · decide!

end FlappyBirdGame
